import Mathlib

/-!
Verification of the batch-ingestion pipeline of the mercados backend
(Flask + SQLAlchemy). The handlers in `app/api/v1` and the record models
in `app/models.py` / `app/models/*.py` are embedded shallowly: JSON
scalars become `JVal`, Python `decimal.Decimal` values become exact
decimals `Dec`, the relational store becomes a list of typed rows, and
the storage collaborator's commit verdict is an explicit parameter
(`Bool` or `CommitResult`), with rollback meaning the store is returned
unchanged. Transport-level concerns (content-type checks, JSON body
parsing) sit outside the model.
-/

namespace Mercados

/-- Exact decimal number `m / 10 ^ e`. Models the values of Python
`decimal.Decimal` as they occur in this code base (plain decimal
literals; exotic forms such as exponents, infinities and NaN do not
arise from the handlers' inputs and are out of scope). -/
structure Dec where
  m : Int
  e : Nat
deriving DecidableEq, Repr

/-- `Decimal(n)` for an integer `n`. -/
def Dec.ofInt (n : Int) : Dec := ⟨n, 0⟩

/-- Numeric (value) equality of decimals, as Python `==` compares
`Decimal` objects. -/
def Dec.eqv (a b : Dec) : Bool := a.m * (10 : Int) ^ b.e == b.m * (10 : Int) ^ a.e

/-- A JSON-like scalar as the handlers see it after `request.get_json()`.
`jdec` is an exact decimal and models fractional JSON numbers; `jother`
stands for a non-scalar value (array or object), carrying its Python
`str()` text; `jnull` doubles for an absent key, because `dict.get`
collapses both to `None`. -/
inductive JVal where
  | jnull
  | jbool (b : Bool)
  | jint (n : Int)
  | jdec (m : Int) (e : Nat)
  | jstr (s : String)
  | jother (txt : String)
deriving DecidableEq, Repr

/-- The decimal digit character for `n < 10` (larger inputs clamp to `9`). -/
def digitChar : Nat → Char
  | 0 => '0'
  | 1 => '1'
  | 2 => '2'
  | 3 => '3'
  | 4 => '4'
  | 5 => '5'
  | 6 => '6'
  | 7 => '7'
  | 8 => '8'
  | _ => '9'

/-- Decimal digits of `n`, most significant first; structured on `fuel`
so that it unfolds by kernel reduction. -/
def natDigitsF : Nat → Nat → List Char
  | 0, _ => []
  | fuel + 1, n =>
    if n < 10 then [digitChar n] else natDigitsF fuel (n / 10) ++ [digitChar (n % 10)]

/-- Decimal digits of `n`, most significant first. -/
def natDigits (n : Nat) : List Char := natDigitsF (n + 1) n

/-- Left-pads with `0` up to width `w`. -/
def padLeftZeros (w : Nat) (cs : List Char) : List Char :=
  List.replicate (w - cs.length) '0' ++ cs

/-- Characters of Python `str()` of the exact decimal `m / 10 ^ e`:
optional minus sign, integer digits and, for `e > 0`, a dot followed by
exactly `e` fraction digits. -/
def decimalReprChars (m : Int) (e : Nat) : List Char :=
  let sgn : List Char := if m < 0 then ['-'] else []
  if e = 0 then sgn ++ natDigits m.natAbs
  else
    sgn ++ natDigits (m.natAbs / 10 ^ e) ++
      '.' :: padLeftZeros e (natDigits (m.natAbs % 10 ^ e))

/-- Python `str()` on the scalar values above. -/
def pyStr : JVal → String
  | .jnull => "None"
  | .jbool b => if b then "True" else "False"
  | .jint n => String.mk (decimalReprChars n 0)
  | .jdec m e => String.mk (decimalReprChars m e)
  | .jstr s => s
  | .jother txt => txt

/-- Reads a digit run left to right into the accumulator; fails on the
first non-digit character. -/
def readNatAux : List Char → Nat → Option Nat
  | [], acc => some acc
  | c :: t, acc => if c.isDigit then readNatAux t (10 * acc + (c.toNat - 48)) else none

/-- All-digit read; the empty list reads as `0` (callers guard emptiness). -/
def readDigits? (cs : List Char) : Option Nat := readNatAux cs 0

/-- Leading sign of a numeric literal, as accepted by Python
`int()` / `Decimal()`. -/
def splitSignChars (cs : List Char) : Int × List Char :=
  match cs with
  | [] => (1, [])
  | c :: t => if c = '-' then (-1, t) else if c = '+' then (1, t) else (1, c :: t)

/-- Assembles a decimal from sign, integer-part digits and fraction
digits; fails when either part has a non-digit or both parts are empty. -/
def decFromParts (sg : Int) (ip fp : List Char) : Option Dec :=
  if ip.isEmpty && fp.isEmpty then none
  else
    match readDigits? ip, readDigits? fp with
    | some a, some b => some ⟨sg * ((a * 10 ^ fp.length + b : Nat) : Int), fp.length⟩
    | _, _ => none

/-- Models `decimal.Decimal(·)` on a character list: optional sign,
digits, optionally a dot and fraction digits. `none` marks the inputs on
which Python raises `InvalidOperation`. -/
def decimalOfChars (cs0 : List Char) : Option Dec :=
  let p := splitSignChars cs0
  let ip := p.2.takeWhile (fun c => c != '.')
  match p.2.dropWhile (fun c => c != '.') with
  | [] => decFromParts p.1 ip []
  | c :: fp => if c == '.' && !fp.contains '.' then decFromParts p.1 ip fp else none

/-- Models `decimal.Decimal(·)` on a string. -/
def decimalOfString (s : String) : Option Dec := decimalOfChars s.toList

/-- Models Python `int(·)` on a string: optional sign then digits.
`none` marks the inputs on which Python raises `ValueError`. -/
def intOfString (s : String) : Option Int :=
  let p := splitSignChars s.toList
  match p.2 with
  | [] => none
  | cs => (readDigits? cs).map (fun a => p.1 * (a : Int))

/-- Truncation toward zero, as Python `int()` truncates a fractional
number. -/
def decTrunc (m : Int) (e : Nat) : Int := Int.tdiv m ((10 : Int) ^ e)

/-- Models Python `int(·)` applied to a JSON scalar; `none` marks the
raising paths (`TypeError` / `ValueError`). A Python `bool` is an `int`
subtype and converts to `0` / `1`. -/
def pyInt : JVal → Option Int
  | .jnull => none
  | .jbool b => some (if b then 1 else 0)
  | .jint n => some n
  | .jdec m e => some (decTrunc m e)
  | .jstr s => intOfString s
  | .jother _ => none

/-- A calendar date as `datetime.date` carries it. -/
structure PyDate where
  year : Nat
  month : Nat
  day : Nat
deriving DecidableEq, Repr

/-- Gregorian leap-year rule. -/
def isLeapYear (y : Nat) : Bool := (y % 4 == 0 && y % 100 != 0) || y % 400 == 0

/-- Days in month `m` of year `y`. -/
def daysInMonth (y m : Nat) : Nat :=
  if m = 2 then (if isLeapYear y then 29 else 28)
  else if m = 4 ∨ m = 6 ∨ m = 9 ∨ m = 11 then 30
  else 31

/-- The numeric value of a digit character, if it is one. -/
def digit? (c : Char) : Option Nat := if c.isDigit then some (c.toNat - 48) else none

/-- Builds a date from numeric fields, validating ranges as
`datetime.date` does. -/
def mkDate? (y mo da : Nat) : Option PyDate :=
  if 1 ≤ y ∧ 1 ≤ mo ∧ mo ≤ 12 ∧ 1 ≤ da ∧ da ≤ daysInMonth y mo then
    some ⟨y, mo, da⟩
  else none

/-- Models `datetime.date.fromisoformat` / `strptime("%Y-%m-%d")` on the
plain `YYYY-MM-DD` form; `none` marks the raising paths. -/
def dateFromIso (s : String) : Option PyDate :=
  match s.toList with
  | [y1, y2, y3, y4, c1, m1, m2, c2, d1, d2] =>
    if c1 = '-' ∧ c2 = '-' then
      match digit? y1, digit? y2, digit? y3, digit? y4,
            digit? m1, digit? m2, digit? d1, digit? d2 with
      | some a, some b, some c, some d, some e, some f, some g, some h =>
        mkDate? (1000 * a + 100 * b + 10 * c + d) (10 * e + f) (10 * g + h)
      | _, _, _, _, _, _, _, _ => none
    else none
  | _ => none

/-- Models `datetime.strptime(.., "%d/%m/%Y")` as the real-balance
service parses `DiaOperacion`. -/
def dateFromDMY (s : String) : Option PyDate :=
  match s.toList with
  | [d1, d2, c1, m1, m2, c2, y1, y2, y3, y4] =>
    if c1 = '/' ∧ c2 = '/' then
      match digit? y1, digit? y2, digit? y3, digit? y4,
            digit? m1, digit? m2, digit? d1, digit? d2 with
      | some a, some b, some c, some d, some e, some f, some g, some h =>
        mkDate? (1000 * a + 100 * b + 10 * c + d) (10 * e + f) (10 * g + h)
      | _, _, _, _, _, _, _, _ => none
    else none
  | _ => none

/-- `date.fromisoformat` applied to a raw JSON value; a non-string raises
`TypeError` (caught by the handlers' `(ValueError, TypeError)` clauses). -/
def dateOfVal (v : JVal) : Option PyDate :=
  match v with
  | .jstr s => dateFromIso s
  | _ => none

/-! ## Demand records (app/api/v1/demand.py, app/models.py) -/

/-- A single-record demand request body. The payload columns of the
`Demanda` table are nullable integers, so the payload fields are modelled
at column type; the key fields stay raw because the handler coerces them
itself. `Sistema` is read with `dict.get("Sistema", "UNK")`, so `none`
stands for an absent key. -/
structure DemandReq where
  FechaOperacion : JVal
  HoraOperacion : JVal
  Gerencia : Option String
  Demanda : Option Int
  Generacion : Option Int
  Pronostico : Option Int
  Enlace : Option Int
  Sistema : Option String
deriving DecidableEq, Repr

/-- The two rejection reasons of the key-validation phase. -/
inductive DemandKeyError where
  | missingKeys
  | badFormat
deriving DecidableEq, Repr

/-- Decidable equality for `Except` results, so that concrete validation
outcomes evaluate inside `decide`. -/
instance {e a : Type} [DecidableEq e] [DecidableEq a] : DecidableEq (Except e a) := fun x y =>
  match x, y with
  | .ok v, .ok w =>
    if h : v = w then .isTrue (congrArg Except.ok h)
    else .isFalse (fun he => h (Except.ok.inj he))
  | .error v, .error w =>
    if h : v = w then .isTrue (congrArg Except.error h)
    else .isFalse (fun he => h (Except.error.inj he))
  | .ok _, .error _ => .isFalse (fun he => Except.noConfusion he)
  | .error _, .ok _ => .isFalse (fun he => Except.noConfusion he)

/-- Key extraction and validation of `submit_data_single`
(app/api/v1/demand.py lines 80-104): presence check on the three key
fields, ISO date parse, `int(hora)` coercion and the `0 <= hora <= 24`
range check. -/
def validateDemandKey (req : DemandReq) : Except DemandKeyError (PyDate × Int × String) :=
  if req.FechaOperacion = .jnull ∨ req.HoraOperacion = .jnull ∨ req.Gerencia = none then
    .error .missingKeys
  else
    match dateOfVal req.FechaOperacion, pyInt req.HoraOperacion, req.Gerencia with
    | some d, some h, some g =>
      if 0 ≤ h ∧ h ≤ 24 then .ok (d, h, g) else .error .badFormat
    | _, _, _ => .error .badFormat

/-- Key validation of the bulk insert path (app/api/v1/demand.py lines
250-269); it differs from the single path in coercing the hour through
`int(str(hora_op_val))`. -/
def validateDemandKeyBulk (req : DemandReq) : Except DemandKeyError (PyDate × Int × String) :=
  if req.FechaOperacion = .jnull ∨ req.HoraOperacion = .jnull ∨ req.Gerencia = none then
    .error .missingKeys
  else
    match dateOfVal req.FechaOperacion, intOfString (pyStr req.HoraOperacion), req.Gerencia with
    | some d, some h, some g =>
      if 0 ≤ h ∧ h ≤ 24 then .ok (d, h, g) else .error .badFormat
    | _, _, _ => .error .badFormat

/-- `DemandRecordSchema.HoraOperacion`'s declared validation
(app/schemas.py lines 32-34): `validate.Range(min=0, max=23)`. -/
def demandSchemaHoraOk (h : Int) : Bool := decide (0 ≤ h) && decide (h ≤ 23)

/-- A stored row of the `Demanda` table (`DemandRecord`, app/models.py
lines 11-65). `id` is the surrogate key the store assigns; the
server-managed timestamps are not modelled. -/
structure DemandRow where
  id : Nat
  FechaOperacion : PyDate
  HoraOperacion : Int
  Gerencia : String
  Demanda : Option Int
  Generacion : Option Int
  Pronostico : Option Int
  Enlace : Option Int
  Sistema : String
deriving DecidableEq, Repr

/-- `DemandRecord.data_is_different` (app/models.py lines 54-65): the
four payload fields, compared against the incoming dict. -/
def DemandRow.data_is_different (r : DemandRow) (req : DemandReq) : Bool :=
  r.Demanda != req.Demanda || r.Generacion != req.Generacion ||
    r.Pronostico != req.Pronostico || r.Enlace != req.Enlace

/-- The demand store: the rows of the `Demanda` table plus the next
surrogate id the storage backend will assign. -/
structure DemandStore where
  rows : List DemandRow
  nextId : Nat
deriving DecidableEq, Repr

/-- The business key of the `Demanda` table
(unique constraint `uq_demand_record_fecha_hora_gerencia`). -/
def demandKeyMatch (r : DemandRow) (d : PyDate) (h : Int) (g : String) : Bool :=
  r.FechaOperacion == d && r.HoraOperacion == h && r.Gerencia == g

/-- `DemandRecord.query.filter_by(FechaOperacion=.., HoraOperacion=..,
Gerencia=..).first()` (demand.py lines 111-113). -/
def DemandStore.findByKey (s : DemandStore) (d : PyDate) (h : Int) (g : String) : Option DemandRow :=
  s.rows.find? (fun r => demandKeyMatch r d h g)

/-- Number of stored rows carrying the given business key. -/
def DemandStore.countKey (s : DemandStore) (d : PyDate) (h : Int) (g : String) : Nat :=
  (s.rows.filter (fun r => demandKeyMatch r d h g)).length

/-- Replaces the first row satisfying `p` (an ORM update writes back the
one row the point lookup located). -/
def replaceFirst (p : DemandRow → Bool) (r2 : DemandRow) : List DemandRow → List DemandRow
  | [] => []
  | r :: t => if p r then r2 :: t else r :: replaceFirst p r2 t

/-- The row built by the insert branch (demand.py lines 119-128):
all payload fields from the input, `Sistema` defaulting to `"UNK"`. -/
def newDemandRow (nid : Nat) (d : PyDate) (h : Int) (g : String) (req : DemandReq) : DemandRow :=
  { id := nid, FechaOperacion := d, HoraOperacion := h, Gerencia := g,
    Demanda := req.Demanda, Generacion := req.Generacion,
    Pronostico := req.Pronostico, Enlace := req.Enlace,
    Sistema := req.Sistema.getD "UNK" }

/-- The four payload assignments of the update branch
(demand.py lines 145-148). -/
def DemandRow.overwritePayload (r : DemandRow) (req : DemandReq) : DemandRow :=
  { r with Demanda := req.Demanda, Generacion := req.Generacion,
           Pronostico := req.Pronostico, Enlace := req.Enlace }

/-- The outcome triple of the single-record endpoint: the `status` and
`action` keys of the body and the HTTP code (`action` is absent from the
validation-failure replies). -/
structure SingleResp where
  status : String
  action : Option String
  http : Nat
deriving DecidableEq, Repr

/-- `submit_data_single` (app/api/v1/demand.py lines 33-187) at the level
of the store and the outcome triple. Transport-level rejections (wrong
content type, non-object body) and the catch-all database-error branch
(lines 169-178) sit outside the model; the point lookup, the insert and
the update commit are the storage collaborator's primitive operations. -/
def submit_data_single (s : DemandStore) (req : DemandReq) : SingleResp × DemandStore :=
  match validateDemandKey req with
  | .error _ => ({ status := "error", action := none, http := 400 }, s)
  | .ok (d, h, g) =>
    match s.findByKey d h g with
    | none =>
      ({ status := "success", action := some "inserted", http := 201 },
       { rows := s.rows ++ [newDemandRow s.nextId d h g req], nextId := s.nextId + 1 })
    | some r =>
      if r.data_is_different req then
        ({ status := "success", action := some "updated", http := 200 },
         { s with rows := replaceFirst (fun x => demandKeyMatch x d h g)
                            (r.overwritePayload req) s.rows })
      else
        ({ status := "conflict", action := some "none", http := 409 }, s)

/-! ## Demand bulk insert (app/api/v1/demand.py lines 189-375) -/

/-- One element of the bulk request's JSON array: either not an object at
all, or a record dict. -/
inductive DemandBulkItem where
  | notObj (v : JVal)
  | obj (req : DemandReq)
deriving DecidableEq, Repr

/-- The storage collaborator's verdict on a batch commit, mirroring the
exception classes the handlers distinguish (`IntegrityError`,
`SQLAlchemyError`, anything else). -/
inductive CommitResult where
  | ok
  | integrityErr
  | sqlaErr
  | otherErr
deriving DecidableEq, Repr

/-- Pre-commit pass of `submit_data_bulk` (demand.py lines 232-292):
returns the pending rows (with surrogate ids continuing from `nid`), the
count of records with validation errors, and the per-item action strings
in input order. -/
def bulkPrepareAux (nid : Nat) : List DemandBulkItem → List DemandRow × Nat × List String
  | [] => ([], 0, [])
  | it :: t =>
    match it with
    | .notObj _ =>
      let r := bulkPrepareAux nid t
      (r.1, r.2.1 + 1, "skipped_invalid_format" :: r.2.2)
    | .obj req =>
      match validateDemandKeyBulk req with
      | .error .missingKeys =>
        let r := bulkPrepareAux nid t
        (r.1, r.2.1 + 1, "skipped_missing_keys" :: r.2.2)
      | .error .badFormat =>
        let r := bulkPrepareAux nid t
        (r.1, r.2.1 + 1, "skipped_invalid_key_format" :: r.2.2)
      | .ok (d, h, g) =>
        let r := bulkPrepareAux (nid + 1) t
        (newDemandRow nid d h g req :: r.1, r.2.1, "insert_queued" :: r.2.2)

/-- The `summary` object of the bulk response (demand.py lines 365-372). -/
structure BulkSummary where
  totalRecordsReceived : Nat
  recordsAttemptedInsert : Nat
  recordsWithValidationErrors : Nat
  successfullyInserted : Nat
  failedOrRolledBack : Nat
deriving DecidableEq, Repr

/-- The bulk response: the early empty-list reply carries a top-level
`status` key and no `summary`; the batch reply carries a `summary` and
per-item `results` (modelled by their action strings). -/
structure BulkResp where
  statusKey : Option String
  summary : Option BulkSummary
  actions : List String
  http : Nat
deriving DecidableEq, Repr

/-- The action string each queued item is rewritten to after the commit
(demand.py lines 301-342). -/
def bulkFailAction : CommitResult → String
  | .ok => "inserted"
  | .integrityErr => "insert_failed_duplicate"
  | .sqlaErr => "insert_failed_db_error"
  | .otherErr => "insert_failed_unexpected_error"

/-- The batch-level entry appended to `results` on a failed commit. -/
def bulkBatchNote : CommitResult → List String
  | .ok => []
  | .integrityErr => ["batch_commit_failed_integrity_error"]
  | .sqlaErr => ["batch_commit_failed_sqla_error"]
  | .otherErr => ["batch_commit_failed_other_error"]

/-- `submit_data_bulk` (app/api/v1/demand.py lines 189-375). `cres` is
the storage collaborator's verdict on the single batch commit; on any
failure the session is rolled back, so the store is returned unchanged. -/
def submit_data_bulk (s : DemandStore) (items : List DemandBulkItem) (cres : CommitResult) :
    BulkResp × DemandStore :=
  if items.isEmpty then
    ({ statusKey := some "success", summary := none, actions := [], http := 200 }, s)
  else
    let prep := bulkPrepareAux s.nextId items
    let pending := prep.1
    let valErrs := prep.2.1
    let acts := prep.2.2
    if pending.isEmpty then
      ({ statusKey := none,
         summary := some { totalRecordsReceived := items.length, recordsAttemptedInsert := 0,
                           recordsWithValidationErrors := valErrs, successfullyInserted := 0,
                           failedOrRolledBack := items.length - valErrs },
         actions := acts,
         http := if valErrs > 0 then 400 else 200 }, s)
    else
      match cres with
      | .ok =>
        ({ statusKey := none,
           summary := some { totalRecordsReceived := items.length,
                             recordsAttemptedInsert := pending.length,
                             recordsWithValidationErrors := valErrs,
                             successfullyInserted := pending.length,
                             failedOrRolledBack := items.length - pending.length - valErrs },
           actions := acts.map (fun a => if a == "insert_queued" then "inserted" else a),
           http := 201 },
         { rows := s.rows ++ pending, nextId := s.nextId + pending.length })
      | c =>
        ({ statusKey := none,
           summary := some { totalRecordsReceived := items.length,
                             recordsAttemptedInsert := pending.length,
                             recordsWithValidationErrors := valErrs,
                             successfullyInserted := 0,
                             failedOrRolledBack := items.length - valErrs },
           actions := (acts.map (fun a => if a == "insert_queued" then bulkFailAction c else a))
                        ++ bulkBatchNote c,
           http := if c = .integrityErr then 409 else 500 },
         s)

/-! ## Generic PND/PML insert-only batches (app/api/v1/generic_mda_mtr.py) -/

/-- One record dict of a PND/PML batch. Key fields are `Option JVal`
(`none` marks an absent key, which fails the `required_keys.issubset`
check even before `None`-ness matters); payload fields are read with
`dict.get`, so `jnull` covers absence. -/
structure PnxDict where
  Sistema : Option JVal
  Fecha : Option JVal
  Hora : Option JVal
  Clave : Option JVal
  PML : JVal
  Energia : JVal
  Congestion : JVal
  Perdidas : JVal
deriving DecidableEq, Repr

/-- One element of the batch's JSON array. -/
inductive PnxItem where
  | notObj (v : JVal)
  | obj (r : PnxDict)
deriving DecidableEq, Repr

/-- A row of one of the `PNDMDA`/`PMLMDA`/`PMLMTR`/`PNDMTR` tables as the
insert-only endpoint creates it: typed business key, payload handed to
the ORM object unchanged (`"Pass raw value, let model handle Decimal"`,
generic_mda_mtr.py line 180). -/
structure PnxRow where
  Sistema : String
  Fecha : PyDate
  Hora : Int
  Clave : String
  PML : JVal
  Energia : JVal
  Congestion : JVal
  Perdidas : JVal
deriving DecidableEq, Repr

/-- Per-record validation of `submit_generic_batch_insert_only`
(generic_mda_mtr.py lines 163-198): required keys, the
`str`/`date.fromisoformat(str(..))`/`int` coercions, the `0 <= Hora <= 24`
range check and the length limits on `Sistema` and `Clave`. -/
def validatePnx (r : PnxDict) : Option PnxRow :=
  match r.Sistema, r.Fecha, r.Hora, r.Clave with
  | some vs, some vf, some vh, some vc =>
    match dateFromIso (pyStr vf), pyInt vh with
    | some d, some h =>
      let sis := pyStr vs
      let cla := pyStr vc
      if (0 ≤ h ∧ h ≤ 24) ∧ sis.length ≤ 3 ∧ cla.length ≤ 20 then
        some { Sistema := sis, Fecha := d, Hora := h, Clave := cla,
               PML := r.PML, Energia := r.Energia,
               Congestion := r.Congestion, Perdidas := r.Perdidas }
      else none
    | _, _ => none
  | _, _, _, _ => none

/-- Classification of one batch element: a non-object is a validation
failure, an object goes through `validatePnx`. -/
def classifyPnxItem : PnxItem → Option PnxRow
  | .notObj _ => none
  | .obj r => validatePnx r

/-- Indices (from `i`) of the elements a classifier rejects, in order —
the `record_errors` bookkeeping of the validation loop. -/
def invalidIdxFrom {α β : Type} (cl : α → Option β) (i : Nat) : List α → List Nat
  | [] => []
  | it :: t =>
    if (cl it).isNone then i :: invalidIdxFrom cl (i + 1) t else invalidIdxFrom cl (i + 1) t

/-- The pending-insert set: the classified survivors, in order. -/
def pendingOf {α β : Type} (cl : α → Option β) (items : List α) : List β :=
  items.filterMap cl

/-- The `summary` object shared by the insert-only batch endpoints
(generic_mda_mtr.py lines 114-119). -/
structure GenSummary where
  total_records_received : Nat
  inserted : Nat
  failed_validation : Nat
  database_errors : Nat
deriving DecidableEq, Repr

/-- The insert-only batch response: status string, summary, the indices
of the `errors` entries (`none` for the index-less commit-failure entry)
and the HTTP code. -/
structure GenResp where
  status : String
  summary : GenSummary
  errorIdx : List (Option Nat)
  http : Nat
deriving DecidableEq, Repr

/-- `submit_generic_batch_insert_only` (app/api/v1/generic_mda_mtr.py
lines 87-269) for a recognised data type. `commitOk` is the storage
collaborator's verdict on the one batch commit; `false` covers
uniqueness violations and all other commit-time failures, which this
handler catches uniformly and answers with a rollback. -/
def submit_generic_batch_insert_only (store : List PnxRow) (items : List PnxItem)
    (commitOk : Bool) : GenResp × List PnxRow :=
  if items.isEmpty then
    ({ status := "success",
       summary := { total_records_received := 0, inserted := 0,
                    failed_validation := 0, database_errors := 0 },
       errorIdx := [], http := 200 }, store)
  else
    let pending := pendingOf classifyPnxItem items
    let failed := invalidIdxFrom classifyPnxItem 0 items
    let base : GenSummary :=
      { total_records_received := items.length, inserted := 0,
        failed_validation := failed.length, database_errors := 0 }
    if pending.isEmpty then
      ({ status := if failed.length > 0 then "partial_success" else "success",
         summary := base, errorIdx := failed.map some,
         http := if failed.length > 0 then 207 else 200 }, store)
    else if commitOk then
      ({ status := if failed.length > 0 then "partial_success" else "success",
         summary := { base with inserted := pending.length },
         errorIdx := failed.map some,
         http := if failed.length > 0 then 207 else 200 }, store ++ pending)
    else
      ({ status := "error",
         summary := { base with database_errors := pending.length },
         errorIdx := failed.map some ++ [none], http := 500 }, store)

/-! ## Transfer-capacity insert-only batches
(app/api/v1/capacidad_transferencia.py) -/

/-- One record dict of a `CapacidadTransferencia` batch (all twelve keys
are in the handler's `required_keys` set). -/
structure CapDict where
  Sistema : Option JVal
  FechaOperacion : Option JVal
  Enlace : Option JVal
  Horario : Option JVal
  CapTransDisImpComMwh : Option JVal
  CapResImpEneInadMwh : Option JVal
  CapResImpConfMWh : Option JVal
  CapAbsTransDisImpMWh : Option JVal
  CapTransDisExpComMwh : Option JVal
  CapResExpEneInaMwh : Option JVal
  CapResExpConfMwh : Option JVal
  CapAbsTransDisExpMwh : Option JVal
deriving DecidableEq, Repr

/-- One element of the batch's JSON array. -/
inductive CapItem where
  | notObj (v : JVal)
  | obj (r : CapDict)
deriving DecidableEq, Repr

/-- A row of the `CapacidadTransferencia` table as the batch endpoint
creates it (`CapacidadTransferenciaRecord`,
app/models/capacidad_transferencia_record.py). -/
structure CapRow where
  Sistema : String
  FechaOperacion : PyDate
  Enlace : String
  Horario : Int
  CapTransDisImpComMwh : Int
  CapResImpEneInadMwh : Int
  CapResImpConfMWh : Int
  CapAbsTransDisImpMWh : Int
  CapTransDisExpComMwh : Int
  CapResExpEneInaMwh : Int
  CapResExpConfMwh : Int
  CapAbsTransDisExpMwh : Int
deriving DecidableEq, Repr

/-- Per-record validation of `submit_capacidad_transferencia_batch`
(capacidad_transferencia.py lines 64-108): all twelve required keys, the
`str`/`date.fromisoformat(str(..))`/`int` coercions, the `1 <= Horario <= 24`
range check and the length limits on `Sistema` and `Enlace`. -/
def validateCap (r : CapDict) : Option CapRow :=
  match r.Sistema, r.FechaOperacion, r.Enlace, r.Horario with
  | some vs, some vf, some ve, some vh =>
    match r.CapTransDisImpComMwh, r.CapResImpEneInadMwh, r.CapResImpConfMWh,
          r.CapAbsTransDisImpMWh, r.CapTransDisExpComMwh, r.CapResExpEneInaMwh,
          r.CapResExpConfMwh, r.CapAbsTransDisExpMwh with
    | some v1, some v2, some v3, some v4, some v5, some v6, some v7, some v8 =>
      match dateFromIso (pyStr vf), pyInt vh, pyInt v1, pyInt v2, pyInt v3, pyInt v4,
            pyInt v5, pyInt v6, pyInt v7, pyInt v8 with
      | some d, some h, some c1, some c2, some c3, some c4, some c5, some c6, some c7, some c8 =>
        let sis := pyStr vs
        let enl := pyStr ve
        if (1 ≤ h ∧ h ≤ 24) ∧ sis.length ≤ 3 ∧ enl.length ≤ 32 then
          some { Sistema := sis, FechaOperacion := d, Enlace := enl, Horario := h,
                 CapTransDisImpComMwh := c1, CapResImpEneInadMwh := c2,
                 CapResImpConfMWh := c3, CapAbsTransDisImpMWh := c4,
                 CapTransDisExpComMwh := c5, CapResExpEneInaMwh := c6,
                 CapResExpConfMwh := c7, CapAbsTransDisExpMwh := c8 }
        else none
      | _, _, _, _, _, _, _, _, _, _ => none
    | _, _, _, _, _, _, _, _ => none
  | _, _, _, _ => none

/-- Classification of one transfer-capacity batch element. -/
def classifyCapItem : CapItem → Option CapRow
  | .notObj _ => none
  | .obj r => validateCap r

/-- `submit_capacidad_transferencia_batch`
(app/api/v1/capacidad_transferencia.py lines 11-174); same batch shape as
the generic insert-only endpoint. -/
def submit_capacidad_transferencia_batch (store : List CapRow) (items : List CapItem)
    (commitOk : Bool) : GenResp × List CapRow :=
  if items.isEmpty then
    ({ status := "success",
       summary := { total_records_received := 0, inserted := 0,
                    failed_validation := 0, database_errors := 0 },
       errorIdx := [], http := 200 }, store)
  else
    let pending := pendingOf classifyCapItem items
    let failed := invalidIdxFrom classifyCapItem 0 items
    let base : GenSummary :=
      { total_records_received := items.length, inserted := 0,
        failed_validation := failed.length, database_errors := 0 }
    if pending.isEmpty then
      ({ status := if failed.length > 0 then "partial_success" else "success",
         summary := base, errorIdx := failed.map some,
         http := if failed.length > 0 then 207 else 200 }, store)
    else if commitOk then
      ({ status := if failed.length > 0 then "partial_success" else "success",
         summary := { base with inserted := pending.length },
         errorIdx := failed.map some,
         http := if failed.length > 0 then 207 else 200 }, store ++ pending)
    else
      ({ status := "error",
         summary := { base with database_errors := pending.length },
         errorIdx := failed.map some ++ [none], http := 500 }, store)

/-! ## Decimal coercion on the PND/PML record models -/

/-- A loaded `BasePnxRecord` ORM instance: payload already at the
`Numeric` column type. -/
structure PnxOrmRow where
  Sistema : String
  Fecha : PyDate
  Hora : Int
  Clave : String
  PML : Option Dec
  Energia : Option Dec
  Congestion : Option Dec
  Perdidas : Option Dec
deriving DecidableEq, Repr

/-- `BasePnxRecord._to_decimal_or_none` of app/models.py lines 86-106:
the type-dispatching version. `None` and the empty string short-circuit
to `None`; numbers convert via `Decimal(value)` (a Python `bool` is an
`int` and converts to 0/1); strings via `Decimal(value)`; any other type
makes `Decimal(value)` raise, which is caught and becomes `None`. -/
def to_decimal_or_none (v : JVal) : Option Dec :=
  if v = .jnull ∨ v = .jstr "" then none
  else
    match v with
    | .jbool b => some (Dec.ofInt (if b then 1 else 0))
    | .jint n => some (Dec.ofInt n)
    | .jdec m e => some ⟨m, e⟩
    | .jstr s => decimalOfString s
    | _ => none

/-- `BasePnxRecord._to_decimal_or_none` of app/models/pml_pnd_records.py
lines 30-40: the `Decimal(str(value))` version; only `None`
short-circuits, everything else goes through `str` then the decimal
parser, with parse failures caught and turned into `None`. -/
def to_decimal_or_none_pnx (v : JVal) : Option Dec :=
  match v with
  | .jnull => none
  | w => decimalOfString (pyStr w)

/-- `BasePnxRecord.update_from_dict`
(app/models/pml_pnd_records.py lines 54-59): writes the four payload
columns from the incoming dict, nothing else. -/
def PnxOrmRow.update_from_dict (r : PnxOrmRow) (d : PnxDict) : PnxOrmRow :=
  { r with PML := to_decimal_or_none_pnx d.PML,
           Energia := to_decimal_or_none_pnx d.Energia,
           Congestion := to_decimal_or_none_pnx d.Congestion,
           Perdidas := to_decimal_or_none_pnx d.Perdidas }

/-! ## Real-balance batches (app/api/v1/demanda_real_balance.py,
app/services/demanda_real_balance_service.py) -/

/-- One record dict of a real-balance batch; every field is read with
`dict.get`, so `jnull` covers absence. The optional `FechaCreacion` /
`FechaActualizacion` passthrough (service lines 82-85) is server
metadata and not modelled. -/
structure BalanceItem where
  DiaOperacion : JVal
  Sistema : JVal
  Area : JVal
  Hora : JVal
  Generacion_MWh : JVal
  Importacion_Total_MWh : JVal
  Exportacion_Total_MWh : JVal
  Intercambio_Neto_Entre_Gerencias_MWh : JVal
  Estimacion_Demanda_Por_Balance_MWh : JVal
  Liq : JVal
  FechaPublicacion : JVal
deriving DecidableEq, Repr

/-- A row of the `DemandaRealBalance` table (`DemandaRealBalanceRecord`,
app/models/demanda_real_balance_record.py). `Sistema` and `Area` are
stored as the raw values the service passes through. -/
structure BalanceRow where
  DiaOperacion : PyDate
  Sistema : JVal
  Area : JVal
  Hora : Int
  Generacion_MWh : Option Dec
  Importacion_Total_MWh : Option Dec
  Exportacion_Total_MWh : Option Dec
  Intercambio_Neto_Entre_Gerencias_MWh : Option Dec
  Estimacion_Demanda_Por_Balance_MWh : Option Dec
  Liq : Int
  FechaPublicacion : PyDate
deriving DecidableEq, Repr

/-- The service's strict decimal coercion:
`Decimal(str(x)) if x is not None else None` (service lines 72-76). A
parse failure raises `InvalidOperation`, which the per-record handler
turns into a validation error — so `none` here means the record fails,
in contrast to the lenient `_to_decimal_or_none`. -/
def strictDecOpt (v : JVal) : Option (Option Dec) :=
  match v with
  | .jnull => some none
  | w =>
    match decimalOfString (pyStr w) with
    | some d => some (some d)
    | none => none

/-- Same, but with the sentinel `"---"` also mapping to `None`
(the Intercambio field, service line 75). -/
def strictDecOptDashes (v : JVal) : Option (Option Dec) :=
  if v = .jnull ∨ v = .jstr "---" then some none else strictDecOpt v

/-- Parsing of one record inside `create_demanda_records`
(demanda_real_balance_service.py lines 65-99). `none` covers both the
raising coercions (caught and collected as a per-record validation
error) and a required field coming out `None` (lines 87-90). -/
def parseBalanceItem (it : BalanceItem) : Option BalanceRow :=
  match it.DiaOperacion, it.FechaPublicacion with
  | .jstr sdia, .jstr spub =>
    match dateFromDMY sdia, dateFromIso spub, pyInt it.Hora, pyInt it.Liq with
    | some dia, some pub, some h, some liq =>
      match strictDecOpt it.Generacion_MWh, strictDecOpt it.Importacion_Total_MWh,
            strictDecOpt it.Exportacion_Total_MWh,
            strictDecOptDashes it.Intercambio_Neto_Entre_Gerencias_MWh,
            strictDecOpt it.Estimacion_Demanda_Por_Balance_MWh with
      | some g, some im, some ex, some inter, some est =>
        if it.Sistema = .jnull ∨ it.Area = .jnull then none
        else
          some { DiaOperacion := dia, Sistema := it.Sistema, Area := it.Area, Hora := h,
                 Generacion_MWh := g, Importacion_Total_MWh := im,
                 Exportacion_Total_MWh := ex,
                 Intercambio_Neto_Entre_Gerencias_MWh := inter,
                 Estimacion_Demanda_Por_Balance_MWh := est,
                 Liq := liq, FechaPublicacion := pub }
      | _, _, _, _, _ => none
    | _, _, _, _ => none
  | _, _ => none

/-- The real-balance endpoint's outcome classification
(demanda_real_balance.py lines 26-55). -/
inductive BalanceOutcome where
  | createdOk (count : Nat)
  | emptyListReject
  | pubDateExists
  | validationFailed
  | integrityFailed
  | unexpectedFailed
deriving DecidableEq, Repr

/-- `add_demanda_records_batch` around `create_demanda_records`
(app/api/v1/demanda_real_balance.py lines 18-55 and
app/services/demanda_real_balance_service.py lines 24-118): empty-list
reject, first-record `FechaPublicacion` falsy/parse check, the
existing-publication-date lookup, the collect-then-abort validation
pass, and the single commit (verdict `cres`). Returns the outcome, the
HTTP code and the store. -/
def add_demanda_records_batch (store : List BalanceRow) (data : List BalanceItem)
    (cres : CommitResult) : BalanceOutcome × Nat × List BalanceRow :=
  match data with
  | [] => (.emptyListReject, 400, store)
  | first :: _ =>
    match first.FechaPublicacion with
    | .jnull => (.validationFailed, 400, store)
    | .jstr spub =>
      if spub = "" then (.validationFailed, 400, store)
      else
        match dateFromIso spub with
        | none => (.validationFailed, 400, store)
        | some pub =>
          if store.any (fun r => r.FechaPublicacion == pub) then (.pubDateExists, 409, store)
          else if (data.map parseBalanceItem).any Option.isNone then
            (.validationFailed, 400, store)
          else
            let rows := data.filterMap parseBalanceItem
            match cres with
            | .ok => (.createdOk rows.length, 201, store ++ rows)
            | .integrityErr => (.integrityFailed, 409, store)
            | _ => (.unexpectedFailed, 500, store)
    | _ => (.unexpectedFailed, 500, store)

/-- Whether a bulk item survives the pre-commit pass (`bulkPrepareAux`
queues it). -/
def bulkItemValid : DemandBulkItem → Bool
  | .notObj _ => false
  | .obj req =>
    match validateDemandKeyBulk req with
    | .ok _ => true
    | .error _ => false

/-! ## Concrete demonstration inputs (the spec's scenarios) -/

/-- The spec's concrete single-record scenario:
`FechaOperacion "2024-03-01", HoraOperacion 10, Gerencia "Noroeste",
Demanda 1500`. -/
def demandDemoReq : DemandReq :=
  { FechaOperacion := .jstr "2024-03-01", HoraOperacion := .jint 10,
    Gerencia := some "Noroeste", Demanda := some 1500, Generacion := none,
    Pronostico := none, Enlace := none, Sistema := none }

/-- A well-formed price record with the given hour (the spec's
insert-only scenario uses hours 10, 30, 11). -/
def pnxDemoRec (h : Int) : PnxItem :=
  .obj { Sistema := some (.jstr "SIN"), Fecha := some (.jstr "2024-03-01"),
         Hora := some (.jint h), Clave := some (.jstr "01AMI"),
         PML := .jdec 1234 2, Energia := .jnull, Congestion := .jnull, Perdidas := .jnull }

/-- A real-balance record with the given raw hour value. -/
def balDemoItem (h : JVal) : BalanceItem :=
  { DiaOperacion := .jstr "01/03/2024", Sistema := .jstr "SIN", Area := .jstr "NTE",
    Hora := h, Generacion_MWh := .jdec 105 1, Importacion_Total_MWh := .jnull,
    Exportacion_Total_MWh := .jnull, Intercambio_Neto_Entre_Gerencias_MWh := .jstr "---",
    Estimacion_Demanda_Por_Balance_MWh := .jnull, Liq := .jint 0,
    FechaPublicacion := .jstr "2024-03-01" }

/-- A well-formed transfer-capacity record with the given hour. -/
def capDemoRec (h : Int) : CapItem :=
  .obj { Sistema := some (.jstr "SIN"), FechaOperacion := some (.jstr "2024-03-01"),
         Enlace := some (.jstr "NTE-NOR"), Horario := some (.jint h),
         CapTransDisImpComMwh := some (.jint 100), CapResImpEneInadMwh := some (.jint 0),
         CapResImpConfMWh := some (.jint 0), CapAbsTransDisImpMWh := some (.jint 100),
         CapTransDisExpComMwh := some (.jint 100), CapResExpEneInaMwh := some (.jint 0),
         CapResExpConfMwh := some (.jint 0), CapAbsTransDisExpMwh := some (.jint 100) }

/-! # Theorems

First the arithmetic of digit rendering and parsing (used by claim C8:
the round trip `Decimal(str(value))` of the `pml_pnd_records` coercion),
then list accounting lemmas for the batch handlers, then the claim
theorems C1-C10 with their witnesses and counterexamples. -/

/-- `digitChar` produces digit characters. -/
theorem digitChar_isDigit (k : Nat) (hk : k < 10) : (digitChar k).isDigit = true := by
  interval_cases k <;> decide

/-- `digitChar` inverts to its value. -/
theorem digitChar_val (k : Nat) (hk : k < 10) : (digitChar k).toNat - 48 = k := by
  interval_cases k <;> decide

/-- `natDigitsF` ignores the fuel once it dominates the input. -/
theorem natDigitsF_congr : ∀ (f1 f2 n : Nat), n < f1 → n < f2 →
    natDigitsF f1 n = natDigitsF f2 n := by
  intro f1
  induction f1 with
  | zero => intro f2 n h1 h2; omega
  | succ g ih =>
    intro f2 n h1 h2
    cases f2 with
    | zero => omega
    | succ g2 =>
      simp only [natDigitsF]
      by_cases h10 : n < 10
      · simp [h10]
      · have hlt : n / 10 < n := Nat.div_lt_self (by omega) (by omega)
        simp only [if_neg h10]
        rw [ih g2 (n / 10) (by omega) (by omega)]

/-- The recursion equation of `natDigits`. -/
theorem natDigits_eq (n : Nat) :
    natDigits n = if n < 10 then [digitChar n]
                  else natDigits (n / 10) ++ [digitChar (n % 10)] := by
  show natDigitsF (n + 1) n = _
  conv_lhs => rw [natDigitsF]
  by_cases h10 : n < 10
  · simp [h10]
  · simp only [if_neg h10]
    congr 1
    exact natDigitsF_congr n (n / 10 + 1) (n / 10)
      (by have := Nat.div_lt_self (show 0 < n by omega) (show 1 < 10 by omega); omega)
      (Nat.lt_succ_self _)

/-- Digit lists are never empty. -/
theorem natDigits_ne_nil (n : Nat) : natDigits n ≠ [] := by
  rw [natDigits_eq]
  by_cases h10 : n < 10 <;> simp [h10]

/-- Every character `natDigits` emits is a digit. -/
theorem natDigits_all_isDigit : ∀ n : Nat, ∀ c ∈ natDigits n, c.isDigit = true := by
  intro n
  induction n using Nat.strong_induction_on with
  | _ n ih =>
    rw [natDigits_eq]
    by_cases h10 : n < 10
    · simp only [if_pos h10, List.mem_singleton]
      rintro c rfl
      exact digitChar_isDigit n h10
    · simp only [if_neg h10, List.mem_append, List.mem_singleton]
      rintro c (hc | rfl)
      · exact ih (n / 10) (Nat.div_lt_self (by omega) (by omega)) c hc
      · exact digitChar_isDigit (n % 10) (Nat.mod_lt _ (by omega))

/-- A digit character differs from any non-digit character. -/
theorem isDigit_ne {c x : Char} (h : c.isDigit = true) (hx : x.isDigit = false) : c ≠ x := by
  intro he
  subst he
  rw [h] at hx
  cases hx

/-- Reading a concatenation splits into sequential reads. -/
theorem readNatAux_append (xs ys : List Char) (a : Nat) :
    readNatAux (xs ++ ys) a = (readNatAux xs a).bind (fun b => readNatAux ys b) := by
  induction xs generalizing a with
  | nil => simp [readNatAux]
  | cons c t ih =>
    simp only [List.cons_append, readNatAux]
    by_cases h : c.isDigit
    · simp only [if_pos h]
      exact ih _
    · simp [if_neg h]

/-- Reading back the digit list of `n` appends `n` to the accumulator's
positional value. -/
theorem readNatAux_natDigits : ∀ n a : Nat,
    readNatAux (natDigits n) a = some (a * 10 ^ (natDigits n).length + n) := by
  intro n
  induction n using Nat.strong_induction_on with
  | _ n ih =>
    intro a
    rw [natDigits_eq]
    by_cases h10 : n < 10
    · simp only [if_pos h10, readNatAux, digitChar_isDigit n h10, if_true,
        digitChar_val n h10, List.length_singleton, pow_one]
      congr 1
      omega
    · simp only [if_neg h10]
      rw [readNatAux_append, ih (n / 10) (Nat.div_lt_self (by omega) (by omega)) a]
      simp only [Option.some_bind, readNatAux,
        digitChar_isDigit (n % 10) (Nat.mod_lt _ (by omega)), if_true,
        digitChar_val (n % 10) (Nat.mod_lt _ (by omega)),
        List.length_append, List.length_singleton]
      congr 1
      rw [pow_succ]
      have h1 : a * (10 ^ (natDigits (n / 10)).length * 10) =
          10 * (a * 10 ^ (natDigits (n / 10)).length) := by ring
      rw [h1]
      have h2 : 10 * (a * 10 ^ (natDigits (n / 10)).length + n / 10) =
          10 * (a * 10 ^ (natDigits (n / 10)).length) + 10 * (n / 10) := by ring
      rw [h2]
      omega

/-- The digit list of `n` reads back as `n`. -/
theorem readDigits_natDigits (n : Nat) : readDigits? (natDigits n) = some n := by
  unfold readDigits?
  rw [readNatAux_natDigits]
  simp

/-- Leading zeros scale the accumulator. -/
theorem readNatAux_replicate_zeros : ∀ k a : Nat,
    readNatAux (List.replicate k '0') a = some (a * 10 ^ k) := by
  intro k
  induction k with
  | zero => intro a; simp [readNatAux]
  | succ j ih =>
    intro a
    rw [List.replicate_succ]
    show readNatAux ('0' :: List.replicate j '0') a = _
    simp only [readNatAux, show ('0'.isDigit) = true from rfl, if_true,
      show ('0'.toNat - 48) = 0 from rfl]
    rw [ih]
    congr 1
    rw [pow_succ]
    ring

/-- Digit-count bound: below `10 ^ k` a number has at most `k` digits. -/
theorem natDigits_length_le : ∀ n k : Nat, 0 < k → n < 10 ^ k →
    (natDigits n).length ≤ k := by
  intro n
  induction n using Nat.strong_induction_on with
  | _ n ih =>
    intro k hk hn
    rw [natDigits_eq]
    by_cases h10 : n < 10
    · simp only [if_pos h10, List.length_singleton]
      omega
    · simp only [if_neg h10, List.length_append, List.length_singleton]
      have hk2 : 2 ≤ k := by
        by_contra hcon
        have hk1 : k = 1 := by omega
        subst hk1
        simp [pow_one] at hn
        omega
      have hpow : 10 ^ k = 10 ^ (k - 1) * 10 := by
        conv_lhs => rw [show k = (k - 1) + 1 by omega]
        rw [pow_succ]
      have hdiv : n / 10 < 10 ^ (k - 1) := by
        rw [Nat.div_lt_iff_lt_mul (by omega)]
        omega
      have := ih (n / 10) (Nat.div_lt_self (by omega) (by omega)) (k - 1) (by omega) hdiv
      omega



theorem takeWhile_all_append {p : Char → Bool} (xs ys : List Char)
    (h : ∀ x ∈ xs, p x = true) : (xs ++ ys).takeWhile p = xs ++ ys.takeWhile p := by
  induction xs with
  | nil => simp
  | cons c t ih =>
    have hc := h c (by simp)
    simp only [List.cons_append, List.takeWhile_cons, hc, if_true, List.cons.injEq, true_and]
    exact ih (fun x hx => h x (by simp [hx]))

theorem dropWhile_all_append {p : Char → Bool} (xs ys : List Char)
    (h : ∀ x ∈ xs, p x = true) : (xs ++ ys).dropWhile p = ys.dropWhile p := by
  induction xs with
  | nil => simp
  | cons c t ih =>
    have hc := h c (by simp)
    simp only [List.cons_append, List.dropWhile_cons, hc, if_true]
    exact ih (fun x hx => h x (by simp [hx]))

theorem contains_dot_false (cs : List Char) (h : ∀ c ∈ cs, c.isDigit = true) :
    cs.contains '.' = false := by
  induction cs with
  | nil => rfl
  | cons c t ih =>
    have hc := h c (by simp)
    have hne : ('.' == c) = false := by
      rw [beq_eq_false_iff_ne]
      exact fun he => isDigit_ne hc (by decide) he.symm
    simp only [List.contains_cons, hne, Bool.false_or]
    exact ih (fun x hx => h x (by simp [hx]))

theorem splitSign_sgn_cons (m : Int) (c : Char) (t : List Char) (hc : c.isDigit = true) :
    splitSignChars ((if m < 0 then ['-'] else []) ++ c :: t) =
      ((if m < 0 then -1 else 1 : Int), c :: t) := by
  by_cases hm : m < 0
  · simp [hm, splitSignChars]
  · have h1 : c ≠ '-' := isDigit_ne hc (by decide)
    have h2 : c ≠ '+' := isDigit_ne hc (by decide)
    simp [hm, splitSignChars, h1, h2]

theorem sgn_mul_natAbs (m : Int) : (if m < 0 then -1 else 1 : Int) * (m.natAbs : Int) = m := by
  by_cases hm : m < 0
  · simp only [hm, if_true]
    omega
  · simp only [hm, if_false, one_mul]
    omega

theorem dot_bne_self : (('.' : Char) != '.') = false := by decide

theorem digit_bne_dot {c : Char} (hc : c.isDigit = true) : (c != '.') = true := by
  rw [bne_iff_ne]
  exact isDigit_ne hc (by decide)

theorem decimalOfChars_repr (m : Int) (e : Nat) :
    decimalOfChars (decimalReprChars m e) = some ⟨m, e⟩ := by
  by_cases he : e = 0
  · subst he
    rw [show decimalReprChars m 0 =
        (if m < 0 then ['-'] else []) ++ natDigits m.natAbs from by
      simp [decimalReprChars]]
    cases hd : natDigits m.natAbs with
    | nil => exact absurd hd (natDigits_ne_nil _)
    | cons c t =>
      have hall : ∀ x ∈ c :: t, (x != '.') = true := by
        intro x hx
        exact digit_bne_dot (by rw [← hd] at hx; exact natDigits_all_isDigit _ x hx)
      have hcdig : c.isDigit = true := by
        have := natDigits_all_isDigit m.natAbs c (by rw [hd]; simp)
        exact this
      simp only [decimalOfChars, splitSign_sgn_cons m c t hcdig]
      rw [show (c :: t) = (c :: t) ++ [] from (List.append_nil _).symm]
      rw [takeWhile_all_append _ _ hall, dropWhile_all_append _ _ hall]
      simp only [List.takeWhile_nil, List.dropWhile_nil, List.append_nil]
      rw [decFromParts]
      simp only [List.isEmpty_cons, Bool.false_and, if_false]
      rw [show readDigits? (c :: t) = some m.natAbs from by rw [← hd]; exact readDigits_natDigits _]
      simp only [readDigits?, readNatAux, List.length_nil, pow_zero, mul_one, add_zero]
      rw [if_neg (by simp : ¬ (false = true))]
      exact congrArg (fun z => some (Dec.mk z 0)) (sgn_mul_natAbs m)
  · have hpow : 0 < 10 ^ e := pow_pos (by omega) e
    have hrlt : m.natAbs % 10 ^ e < 10 ^ e := Nat.mod_lt _ hpow
    have hlen : (natDigits (m.natAbs % 10 ^ e)).length ≤ e :=
      natDigits_length_le _ e (by omega) hrlt
    have hpadlen : (padLeftZeros e (natDigits (m.natAbs % 10 ^ e))).length = e := by
      simp only [padLeftZeros, List.length_append, List.length_replicate]
      omega
    have hpad_dig : ∀ x ∈ padLeftZeros e (natDigits (m.natAbs % 10 ^ e)), x.isDigit = true := by
      intro x hx
      rcases List.mem_append.mp hx with hx | hx
      · rw [List.eq_of_mem_replicate hx]
        decide
      · exact natDigits_all_isDigit _ x hx
    have hpad_read : readDigits? (padLeftZeros e (natDigits (m.natAbs % 10 ^ e))) =
        some (m.natAbs % 10 ^ e) := by
      unfold readDigits? padLeftZeros
      rw [readNatAux_append, readNatAux_replicate_zeros]
      simp only [Nat.zero_mul, Option.some_bind]
      rw [readNatAux_natDigits]
      simp
    rw [show decimalReprChars m e =
        (if m < 0 then ['-'] else []) ++ (natDigits (m.natAbs / 10 ^ e) ++
          '.' :: padLeftZeros e (natDigits (m.natAbs % 10 ^ e))) from by
      simp [decimalReprChars, he, List.append_assoc]]
    cases hd : natDigits (m.natAbs / 10 ^ e) with
    | nil => exact absurd hd (natDigits_ne_nil _)
    | cons c t =>
      have hctdig : ∀ x ∈ c :: t, x.isDigit = true := by
        intro x hx
        rw [← hd] at hx
        exact natDigits_all_isDigit _ x hx
      have hall : ∀ x ∈ c :: t, (x != '.') = true :=
        fun x hx => digit_bne_dot (hctdig x hx)
      simp only [List.cons_append, splitSign_sgn_cons m c
        (t ++ '.' :: padLeftZeros e (natDigits (m.natAbs % 10 ^ e))) (hctdig c (by simp)),
        decimalOfChars]
      rw [show (c :: (t ++ '.' :: padLeftZeros e (natDigits (m.natAbs % 10 ^ e)))) =
          ((c :: t) ++ '.' :: padLeftZeros e (natDigits (m.natAbs % 10 ^ e))) from by simp]
      rw [takeWhile_all_append _ _ hall, dropWhile_all_append _ _ hall]
      rw [List.takeWhile_cons, List.dropWhile_cons]
      simp only [dot_bne_self, Bool.false_eq_true, if_false, List.append_nil]
      rw [contains_dot_false _ hpad_dig]
      rw [if_pos (by decide)]
      rw [decFromParts]
      simp only [List.isEmpty_cons, Bool.false_and, Bool.false_eq_true, if_false]
      rw [show readDigits? (c :: t) = some (m.natAbs / 10 ^ e) from by
        rw [← hd]; exact readDigits_natDigits _]
      rw [hpad_read, hpadlen]
      have hval : m.natAbs / 10 ^ e * 10 ^ e + m.natAbs % 10 ^ e = m.natAbs := by
        rw [Nat.mul_comm]
        exact Nat.div_add_mod _ _
      show some (Dec.mk ((if m < 0 then -1 else 1) *
        ((m.natAbs / 10 ^ e * 10 ^ e + m.natAbs % 10 ^ e : Nat) : Int)) e) = _
      rw [hval]
      exact congrArg (fun z => some (Dec.mk z e)) (sgn_mul_natAbs m)


/-- Option-valued find over an append skips an unsuccessful left part. -/
theorem find?_append_none {α : Type} {p : α → Bool} {l1 l2 : List α}
    (h : l1.find? p = none) : (l1 ++ l2).find? p = l2.find? p := by
  induction l1 with
  | nil => simp
  | cons a t ih =>
    by_cases hp : p a
    · rw [List.find?_cons_of_pos _ hp] at h
      cases h
    · rw [List.cons_append, List.find?_cons_of_neg _ hp]
      rw [List.find?_cons_of_neg _ hp] at h
      exact ih h

/-- A key that no stored row carries is not found. -/
theorem findByKey_none_of_count_zero (s : DemandStore) (d : PyDate) (h : Int) (g : String)
    (h0 : s.countKey d h g = 0) : s.findByKey d h g = none := by
  unfold DemandStore.countKey at h0
  rw [List.length_eq_zero] at h0
  unfold DemandStore.findByKey
  cases hf : s.rows.find? (fun r => demandKeyMatch r d h g) with
  | none => rfl
  | some r =>
    have hp := List.find?_some hf
    have hm := List.mem_of_find?_eq_some hf
    have : r ∈ s.rows.filter (fun r => demandKeyMatch r d h g) :=
      List.mem_filter.mpr ⟨hm, hp⟩
    rw [h0] at this
    cases this

/-- C1: for a single-record demand upsert whose key fields validate: an
absent business key inserts a row carrying every payload field of the
input and reports `inserted` / 201; an existing row with at least one
differing payload field gets its payload overwritten in place and the
handler reports `updated` / 200; an existing row with identical payload
is left untouched and the handler reports `conflict` / `none` / 409. -/
theorem c1_demand_single_upsert (s : DemandStore) (req : DemandReq) (d : PyDate)
    (h : Int) (g : String) (hv : validateDemandKey req = .ok (d, h, g)) :
    (s.findByKey d h g = none →
      submit_data_single s req =
        ({ status := "success", action := some "inserted", http := 201 },
         { rows := s.rows ++ [newDemandRow s.nextId d h g req], nextId := s.nextId + 1 })) ∧
    (∀ r, s.findByKey d h g = some r → r.data_is_different req = true →
      submit_data_single s req =
        ({ status := "success", action := some "updated", http := 200 },
         { s with rows := replaceFirst (fun x => demandKeyMatch x d h g)
                            (r.overwritePayload req) s.rows })) ∧
    (∀ r, s.findByKey d h g = some r → r.data_is_different req = false →
      submit_data_single s req =
        ({ status := "conflict", action := some "none", http := 409 }, s)) := by
  refine ⟨fun hf => ?_, fun r hf hd => ?_, fun r hf hd => ?_⟩
  · simp [submit_data_single, hv, hf]
  · simp [submit_data_single, hv, hf, hd]
  · simp [submit_data_single, hv, hf, hd]

/-- C1 witness: the spec's concrete scenario on an empty store. -/
theorem c1_demand_single_upsert_witness :
    validateDemandKey demandDemoReq = .ok (⟨2024, 3, 1⟩, 10, "Noroeste") ∧
    (⟨[], 0⟩ : DemandStore).findByKey ⟨2024, 3, 1⟩ 10 "Noroeste" = none ∧
    submit_data_single ⟨[], 0⟩ demandDemoReq =
      ({ status := "success", action := some "inserted", http := 201 },
       { rows := [newDemandRow 0 ⟨2024, 3, 1⟩ 10 "Noroeste" demandDemoReq], nextId := 1 }) :=
  ⟨by decide, by decide,
    (c1_demand_single_upsert ⟨[], 0⟩ demandDemoReq ⟨2024, 3, 1⟩ 10 "Noroeste" (by decide)).1
      (by decide)⟩

/-- C4: on a fresh business key, the first call inserts (201), a second
call with the identical payload reports `conflict` / `none` / 409,
leaves the store exactly as the first call left it, and the key is
stored exactly once. -/
theorem c4_upsert_idempotent_on_identical (s : DemandStore) (req : DemandReq) (d : PyDate)
    (h : Int) (g : String) (hv : validateDemandKey req = .ok (d, h, g))
    (h0 : s.countKey d h g = 0) :
    (submit_data_single s req).1.action = some "inserted" ∧
    (submit_data_single s req).1.http = 201 ∧
    (submit_data_single (submit_data_single s req).2 req).1 =
      { status := "conflict", action := some "none", http := 409 } ∧
    (submit_data_single (submit_data_single s req).2 req).2 = (submit_data_single s req).2 ∧
    ((submit_data_single s req).2).countKey d h g = 1 := by
  have hf : s.findByKey d h g = none := findByKey_none_of_count_zero s d h g h0
  have hkm : demandKeyMatch (newDemandRow s.nextId d h g req) d h g = true := by
    simp [newDemandRow, demandKeyMatch]
  have hfilter : s.rows.filter (fun r => demandKeyMatch r d h g) = [] := by
    have := h0
    unfold DemandStore.countKey at this
    rwa [List.length_eq_zero] at this
  have hrows_none : s.rows.find? (fun r => demandKeyMatch r d h g) = none := hf
  have hs1 : submit_data_single s req =
      ({ status := "success", action := some "inserted", http := 201 },
       { rows := s.rows ++ [newDemandRow s.nextId d h g req], nextId := s.nextId + 1 }) := by
    simp [submit_data_single, hv, hf]
  have hfind1 : (DemandStore.mk (s.rows ++ [newDemandRow s.nextId d h g req])
      (s.nextId + 1)).findByKey d h g = some (newDemandRow s.nextId d h g req) := by
    unfold DemandStore.findByKey
    rw [find?_append_none hrows_none]
    exact List.find?_cons_of_pos _ hkm
  have hnodiff : (newDemandRow s.nextId d h g req).data_is_different req = false := by
    simp [DemandRow.data_is_different, newDemandRow]
  refine ⟨by rw [hs1], by rw [hs1], ?_, ?_, ?_⟩
  · rw [hs1]
    simp [submit_data_single, hv, hfind1, hnodiff]
  · rw [hs1]
    simp [submit_data_single, hv, hfind1, hnodiff]
  · rw [hs1]
    unfold DemandStore.countKey
    simp [List.filter_append, hfilter, hkm]

/-- C4 witness: the spec's concrete record, submitted twice. -/
theorem c4_upsert_idempotent_on_identical_witness :
    validateDemandKey demandDemoReq = .ok (⟨2024, 3, 1⟩, 10, "Noroeste") ∧
    (⟨[], 0⟩ : DemandStore).countKey ⟨2024, 3, 1⟩ 10 "Noroeste" = 0 ∧
    ((submit_data_single (submit_data_single ⟨[], 0⟩ demandDemoReq).2 demandDemoReq).1 =
      { status := "conflict", action := some "none", http := 409 } ∧
     ((submit_data_single ⟨[], 0⟩ demandDemoReq).2).countKey ⟨2024, 3, 1⟩ 10 "Noroeste" = 1) :=
  ⟨by decide, by decide,
    ((c4_upsert_idempotent_on_identical ⟨[], 0⟩ demandDemoReq ⟨2024, 3, 1⟩ 10 "Noroeste"
        (by decide) (by decide)).2.2.1),
    ((c4_upsert_idempotent_on_identical ⟨[], 0⟩ demandDemoReq ⟨2024, 3, 1⟩ 10 "Noroeste"
        (by decide) (by decide)).2.2.2.2)⟩

/-- C5: the live single-record demand handler accepts `HoraOperacion = 24`
(its range check is `0 <= hora <= 24`, demand.py line 96) and proceeds to
insert it, while the declared schema range for the same field
(`validate.Range(min=0, max=23)`, schemas.py line 33, matching the model
comment `# 0-23` at models.py line 16) rejects 24, as the claim demands.
Hours 0 and 23 are accepted by both, and -1 and 25 rejected by both. -/
theorem c5_demand_hour24_accepted :
    validateDemandKey { demandDemoReq with HoraOperacion := .jint 24 } =
      .ok (⟨2024, 3, 1⟩, 24, "Noroeste") ∧
    (submit_data_single ⟨[], 0⟩ { demandDemoReq with HoraOperacion := .jint 24 }).1 =
      { status := "success", action := some "inserted", http := 201 } ∧
    demandSchemaHoraOk 24 = false ∧
    validateDemandKey { demandDemoReq with HoraOperacion := .jint 0 } =
      .ok (⟨2024, 3, 1⟩, 0, "Noroeste") ∧
    demandSchemaHoraOk 0 = true ∧
    validateDemandKey { demandDemoReq with HoraOperacion := .jint 23 } =
      .ok (⟨2024, 3, 1⟩, 23, "Noroeste") ∧
    demandSchemaHoraOk 23 = true ∧
    validateDemandKey { demandDemoReq with HoraOperacion := .jint (-1) } =
      .error .badFormat ∧
    validateDemandKey { demandDemoReq with HoraOperacion := .jint 25 } =
      .error .badFormat := by
  decide

/-- C9: the update path writes only the four payload fields: the row
written back keeps the located row's surrogate id, business-key fields
and `Sistema`, carries the input payload, and replaces exactly the
located row; likewise `BasePnxRecord.update_from_dict` leaves the
price-record business key untouched. -/
theorem c9_update_frame (s : DemandStore) (req : DemandReq) (d : PyDate) (h : Int)
    (g : String) (r : DemandRow) (hv : validateDemandKey req = .ok (d, h, g))
    (hf : s.findByKey d h g = some r) (hd : r.data_is_different req = true) :
    ((r.overwritePayload req).id = r.id ∧
     (r.overwritePayload req).FechaOperacion = r.FechaOperacion ∧
     (r.overwritePayload req).HoraOperacion = r.HoraOperacion ∧
     (r.overwritePayload req).Gerencia = r.Gerencia ∧
     (r.overwritePayload req).Sistema = r.Sistema) ∧
    ((r.overwritePayload req).Demanda = req.Demanda ∧
     (r.overwritePayload req).Generacion = req.Generacion ∧
     (r.overwritePayload req).Pronostico = req.Pronostico ∧
     (r.overwritePayload req).Enlace = req.Enlace) ∧
    (submit_data_single s req).1.action = some "updated" ∧
    (submit_data_single s req).2 =
      { s with rows := replaceFirst (fun x => demandKeyMatch x d h g)
                         (r.overwritePayload req) s.rows } ∧
    (∀ (w : PnxOrmRow) (pd : PnxDict),
      (w.update_from_dict pd).Sistema = w.Sistema ∧
      (w.update_from_dict pd).Fecha = w.Fecha ∧
      (w.update_from_dict pd).Hora = w.Hora ∧
      (w.update_from_dict pd).Clave = w.Clave) := by
  refine ⟨⟨rfl, rfl, rfl, rfl, rfl⟩, ⟨rfl, rfl, rfl, rfl⟩, ?_, ?_, fun w pd => ⟨rfl, rfl, rfl, rfl⟩⟩ <;>
    simp [submit_data_single, hv, hf, hd]

/-- C9 witness: resubmitting the stored record with `Demanda` changed to
1600 updates in place, key and id untouched. -/
theorem c9_update_frame_witness :
    validateDemandKey { demandDemoReq with Demanda := some 1600 } =
      .ok (⟨2024, 3, 1⟩, 10, "Noroeste") ∧
    ((submit_data_single ⟨[], 0⟩ demandDemoReq).2).findByKey ⟨2024, 3, 1⟩ 10 "Noroeste" =
      some (newDemandRow 0 ⟨2024, 3, 1⟩ 10 "Noroeste" demandDemoReq) ∧
    (newDemandRow 0 ⟨2024, 3, 1⟩ 10 "Noroeste" demandDemoReq).data_is_different
      { demandDemoReq with Demanda := some 1600 } = true ∧
    (submit_data_single (submit_data_single ⟨[], 0⟩ demandDemoReq).2
        { demandDemoReq with Demanda := some 1600 }).1.action = some "updated" :=
  ⟨by decide, by decide, by decide,
    (c9_update_frame (submit_data_single ⟨[], 0⟩ demandDemoReq).2
        { demandDemoReq with Demanda := some 1600 } ⟨2024, 3, 1⟩ 10 "Noroeste"
        (newDemandRow 0 ⟨2024, 3, 1⟩ 10 "Noroeste" demandDemoReq)
        (by decide) (by decide) (by decide)).2.2.1⟩



/-- Every item is either classified into the pending set or recorded as a
validation failure. -/
theorem pendingOf_length_add_invalid {α β : Type} (cl : α → Option β) :
    ∀ (items : List α) (i : Nat),
      (pendingOf cl items).length + (invalidIdxFrom cl i items).length = items.length := by
  intro items
  induction items with
  | nil => intro i; simp [pendingOf, invalidIdxFrom]
  | cons a t ih =>
    intro i
    cases hc : cl a with
    | none =>
      have h1 : pendingOf cl (a :: t) = pendingOf cl t := by
        simp [pendingOf, List.filterMap_cons, hc]
      have h2 : invalidIdxFrom cl i (a :: t) = i :: invalidIdxFrom cl (i + 1) t := by
        simp [invalidIdxFrom, hc]
      rw [h1, h2]
      have := ih (i + 1)
      simp only [List.length_cons]
      omega
    | some b =>
      have h1 : pendingOf cl (a :: t) = b :: pendingOf cl t := by
        simp [pendingOf, List.filterMap_cons, hc]
      have h2 : invalidIdxFrom cl i (a :: t) = invalidIdxFrom cl (i + 1) t := by
        simp [invalidIdxFrom, hc]
      rw [h1, h2]
      have := ih (i + 1)
      simp only [List.length_cons]
      omega

/-- Dropping an invalid item does not change the pending set. -/
theorem pendingOf_middle {α β : Type} (cl : α → Option β) (xs ys : List α) (bad : α)
    (hb : cl bad = none) :
    pendingOf cl (xs ++ bad :: ys) = pendingOf cl (xs ++ ys) := by
  simp [pendingOf, List.filterMap_append, List.filterMap_cons, hb]

/-- The number of recorded validation failures does not depend on the
starting index. -/
theorem invalidIdx_length_congr {α β : Type} (cl : α → Option β) :
    ∀ (items : List α) (i j : Nat),
      (invalidIdxFrom cl i items).length = (invalidIdxFrom cl j items).length := by
  intro items
  induction items with
  | nil => intro i j; rfl
  | cons a t ih =>
    intro i j
    by_cases hc : (cl a).isNone <;> simp [invalidIdxFrom, hc, ih (i + 1) (j + 1)]

/-- An invalid item in the middle of a batch is recorded under its own
index. -/
theorem invalidIdx_middle_mem {α β : Type} (cl : α → Option β) (bad : α)
    (hb : cl bad = none) :
    ∀ (xs ys : List α) (i : Nat), (i + xs.length) ∈ invalidIdxFrom cl i (xs ++ bad :: ys) := by
  intro xs
  induction xs with
  | nil =>
    intro ys i
    simp [invalidIdxFrom, hb]
  | cons a t ih =>
    intro ys i
    have he : i + (a :: t).length = (i + 1) + t.length := by simp [List.length_cons]; omega
    rw [he]
    simp only [List.cons_append, invalidIdxFrom]
    by_cases hc : (cl a).isNone
    · simp only [hc, if_true]
      exact List.mem_cons_of_mem _ (ih ys (i + 1))
    · simp only [hc, Bool.false_eq_true, if_false]
      exact ih ys (i + 1)

/-- An invalid item in the middle adds exactly one recorded failure. -/
theorem invalidIdx_middle_length {α β : Type} (cl : α → Option β) (bad : α)
    (hb : cl bad = none) :
    ∀ (xs ys : List α) (i : Nat),
      (invalidIdxFrom cl i (xs ++ bad :: ys)).length =
        (invalidIdxFrom cl i (xs ++ ys)).length + 1 := by
  intro xs
  induction xs with
  | nil =>
    intro ys i
    simp only [List.nil_append, invalidIdxFrom, hb, Option.isNone_none, if_true,
      List.length_cons]
    rw [invalidIdx_length_congr cl ys (i + 1) i]
  | cons a t ih =>
    intro ys i
    simp only [List.cons_append, invalidIdxFrom]
    by_cases hc : (cl a).isNone <;> simp [hc, ih ys (i + 1)]

/-- C10: whatever the batch and the commit verdict, the insert-only
summaries balance: `inserted + failed_validation + database_errors =
total_records_received`, and the pending set is wholly committed or
wholly counted as database errors (never split). -/
theorem c10_summary_invariant (pnxStore : List PnxRow) (pnxItems : List PnxItem)
    (capStore : List CapRow) (capItems : List CapItem) (commitOk : Bool) :
    (((submit_generic_batch_insert_only pnxStore pnxItems commitOk).1.summary.inserted +
      (submit_generic_batch_insert_only pnxStore pnxItems commitOk).1.summary.failed_validation +
      (submit_generic_batch_insert_only pnxStore pnxItems commitOk).1.summary.database_errors =
      (submit_generic_batch_insert_only pnxStore pnxItems commitOk).1.summary.total_records_received) ∧
     ((submit_generic_batch_insert_only pnxStore pnxItems commitOk).1.summary.inserted = 0 ∨
      (submit_generic_batch_insert_only pnxStore pnxItems commitOk).1.summary.database_errors = 0)) ∧
    (((submit_capacidad_transferencia_batch capStore capItems commitOk).1.summary.inserted +
      (submit_capacidad_transferencia_batch capStore capItems commitOk).1.summary.failed_validation +
      (submit_capacidad_transferencia_batch capStore capItems commitOk).1.summary.database_errors =
      (submit_capacidad_transferencia_batch capStore capItems commitOk).1.summary.total_records_received) ∧
     ((submit_capacidad_transferencia_batch capStore capItems commitOk).1.summary.inserted = 0 ∨
      (submit_capacidad_transferencia_batch capStore capItems commitOk).1.summary.database_errors = 0)) := by
  constructor
  · have hsum := pendingOf_length_add_invalid classifyPnxItem pnxItems 0
    by_cases hemp : pnxItems.isEmpty
    · simp [submit_generic_batch_insert_only, hemp]
    · by_cases hpe : (pendingOf classifyPnxItem pnxItems).isEmpty
      · have hplen : (pendingOf classifyPnxItem pnxItems).length = 0 := by
          rw [List.isEmpty_iff] at hpe
          simp [hpe]
        simp only [submit_generic_batch_insert_only, hemp, Bool.false_eq_true, if_false,
          hpe, if_true]
        constructor
        · omega
        · left; trivial
      · by_cases hck : commitOk
        · simp only [submit_generic_batch_insert_only, hemp, Bool.false_eq_true, if_false,
            hpe, hck, if_true]
          constructor
          · omega
          · right; trivial
        · simp only [submit_generic_batch_insert_only, hemp, Bool.false_eq_true, if_false,
            hpe, hck]
          constructor
          · omega
          · left; trivial
  · have hsum := pendingOf_length_add_invalid classifyCapItem capItems 0
    by_cases hemp : capItems.isEmpty
    · simp [submit_capacidad_transferencia_batch, hemp]
    · by_cases hpe : (pendingOf classifyCapItem capItems).isEmpty
      · have hplen : (pendingOf classifyCapItem capItems).length = 0 := by
          rw [List.isEmpty_iff] at hpe
          simp [hpe]
        simp only [submit_capacidad_transferencia_batch, hemp, Bool.false_eq_true, if_false,
          hpe, if_true]
        constructor
        · omega
        · left; trivial
      · by_cases hck : commitOk
        · simp only [submit_capacidad_transferencia_batch, hemp, Bool.false_eq_true, if_false,
            hpe, hck, if_true]
          constructor
          · omega
          · right; trivial
        · simp only [submit_capacidad_transferencia_batch, hemp, Bool.false_eq_true, if_false,
            hpe, hck]
          constructor
          · omega
          · left; trivial



/-- C3: the insert-only price-record endpoint's outcome classification:
an empty batch is a success no-op; an all-valid batch with a successful
commit is a success; validation failures with a successful or skipped
commit give `partial_success` / 207 with `failed_validation` counting the
invalid records and `inserted` counting the committed valid ones; a
commit failure gives `error` / 500. -/
theorem c3_insert_only_outcome_classification (store : List PnxRow) (items : List PnxItem)
    (commitOk : Bool) :
    (items = [] →
      (submit_generic_batch_insert_only store items commitOk).1 =
        { status := "success",
          summary := { total_records_received := 0, inserted := 0,
                       failed_validation := 0, database_errors := 0 },
          errorIdx := [], http := 200 } ∧
      (submit_generic_batch_insert_only store items commitOk).2 = store) ∧
    (items ≠ [] → invalidIdxFrom classifyPnxItem 0 items = [] → commitOk = true →
      (submit_generic_batch_insert_only store items commitOk).1.status = "success" ∧
      (submit_generic_batch_insert_only store items commitOk).1.http = 200 ∧
      (submit_generic_batch_insert_only store items commitOk).1.summary.inserted =
        items.length) ∧
    ((invalidIdxFrom classifyPnxItem 0 items).length > 0 →
      (pendingOf classifyPnxItem items = [] ∨ commitOk = true) →
      (submit_generic_batch_insert_only store items commitOk).1.status = "partial_success" ∧
      (submit_generic_batch_insert_only store items commitOk).1.http = 207 ∧
      (submit_generic_batch_insert_only store items commitOk).1.summary.failed_validation =
        (invalidIdxFrom classifyPnxItem 0 items).length ∧
      (submit_generic_batch_insert_only store items commitOk).1.summary.inserted =
        (pendingOf classifyPnxItem items).length ∧
      (submit_generic_batch_insert_only store items commitOk).1.summary.database_errors = 0) ∧
    (pendingOf classifyPnxItem items ≠ [] → commitOk = false →
      (submit_generic_batch_insert_only store items commitOk).1.status = "error" ∧
      (submit_generic_batch_insert_only store items commitOk).1.http = 500) := by
  have hsum := pendingOf_length_add_invalid classifyPnxItem items 0
  refine ⟨fun he => ?_, fun hne hval hck => ?_, fun hfail hc => ?_, fun hp hck => ?_⟩
  · subst he
    exact ⟨rfl, rfl⟩
  · subst hck
    have hemp : items.isEmpty = false := by
      cases items with
      | nil => exact absurd rfl hne
      | cons a t => rfl
    have hplen : (pendingOf classifyPnxItem items).length = items.length := by
      rw [hval] at hsum
      simpa using hsum
    have hpe : (pendingOf classifyPnxItem items).isEmpty = false := by
      cases hp : pendingOf classifyPnxItem items with
      | nil =>
        rw [hp] at hplen
        cases items with
        | nil => exact absurd rfl hne
        | cons a t => simp at hplen
      | cons a t => rfl
    simp [submit_generic_batch_insert_only, hemp, hpe, hval, hplen]
  · have hemp : items.isEmpty = false := by
      cases items with
      | nil => simp [invalidIdxFrom] at hfail
      | cons a t => rfl
    rcases hc with hc | hc
    · simp [submit_generic_batch_insert_only, hemp, hc, hfail]
    · subst hc
      by_cases hpe : (pendingOf classifyPnxItem items).isEmpty
      · have hp0 : pendingOf classifyPnxItem items = [] := List.isEmpty_iff.mp hpe
        simp [submit_generic_batch_insert_only, hemp, hpe, hfail, hp0]
      · simp [submit_generic_batch_insert_only, hemp, hpe, hfail]
  · subst hck
    have hemp : items.isEmpty = false := by
      cases items with
      | nil => simp [pendingOf] at hp
      | cons a t => rfl
    have hpe : (pendingOf classifyPnxItem items).isEmpty = false := by
      cases hq : pendingOf classifyPnxItem items with
      | nil => exact absurd hq hp
      | cons a t => rfl
    simp [submit_generic_batch_insert_only, hemp, hpe]

/-- C3 witness: the spec's three-record scenario with the middle record
carrying `Hora: 30` gives `partial_success` / 207 and the summary
`(3, 2, 1, 0)`. -/
theorem c3_insert_only_outcome_classification_witness :
    (submit_generic_batch_insert_only [] [pnxDemoRec 10, pnxDemoRec 30, pnxDemoRec 11]
        true).1.status = "partial_success" ∧
    (submit_generic_batch_insert_only [] [pnxDemoRec 10, pnxDemoRec 30, pnxDemoRec 11]
        true).1.http = 207 ∧
    (submit_generic_batch_insert_only [] [pnxDemoRec 10, pnxDemoRec 30, pnxDemoRec 11]
        true).1.summary.failed_validation = 1 ∧
    (submit_generic_batch_insert_only [] [pnxDemoRec 10, pnxDemoRec 30, pnxDemoRec 11]
        true).1.summary.inserted = 2 ∧
    (submit_generic_batch_insert_only [] [pnxDemoRec 10, pnxDemoRec 30, pnxDemoRec 11]
        true).1.summary.total_records_received = 3 ∧
    (submit_generic_batch_insert_only [] [pnxDemoRec 10, pnxDemoRec 30, pnxDemoRec 11]
        true).1.summary.database_errors = 0 :=
  have h := (c3_insert_only_outcome_classification []
      [pnxDemoRec 10, pnxDemoRec 30, pnxDemoRec 11] true).2.2.1
    (by decide) (Or.inr rfl)
  ⟨h.1, h.2.1, h.2.2.1.trans (by decide), h.2.2.2.1.trans (by decide), by decide, h.2.2.2.2⟩



/-- Every action string the bulk pre-commit pass records is one of four
literals. -/
theorem bulkPrepare_actions_mem : ∀ (items : List DemandBulkItem) (nid : Nat),
    ∀ a ∈ (bulkPrepareAux nid items).2.2,
      a = "skipped_invalid_format" ∨ a = "skipped_missing_keys" ∨
      a = "skipped_invalid_key_format" ∨ a = "insert_queued" := by
  intro items
  induction items with
  | nil => intro nid a ha; cases ha
  | cons it t ih =>
    intro nid a ha
    cases it with
    | notObj v =>
      rcases List.mem_cons.mp ha with rfl | ha
      · left; rfl
      · exact ih nid a ha
    | obj req =>
      revert ha
      cases hv : validateDemandKeyBulk req with
      | ok v =>
        obtain ⟨d, h, g⟩ := v
        simp only [bulkPrepareAux, hv]
        intro ha
        rcases List.mem_cons.mp ha with rfl | ha
        · right; right; right; rfl
        · exact ih (nid + 1) a ha
      | error er =>
        cases er <;>
          · simp only [bulkPrepareAux, hv]
            intro ha
            rcases List.mem_cons.mp ha with rfl | ha
            · simp
            · exact ih nid a ha

/-- The bulk pre-commit pass queues exactly as many `insert_queued`
entries as pending rows. -/
theorem bulkPrepare_countP_queued : ∀ (items : List DemandBulkItem) (nid : Nat),
    ((bulkPrepareAux nid items).2.2.countP (fun a => a == "insert_queued")) =
      (bulkPrepareAux nid items).1.length := by
  intro items
  induction items with
  | nil => intro nid; rfl
  | cons it t ih =>
    intro nid
    cases it with
    | notObj v => simp [bulkPrepareAux, List.countP_cons, ih nid]
    | obj req =>
      cases hv : validateDemandKeyBulk req with
      | ok v =>
        obtain ⟨d, h, g⟩ := v
        simp [bulkPrepareAux, hv, List.countP_cons, ih (nid + 1)]
      | error er =>
        cases er <;> simp [bulkPrepareAux, hv, List.countP_cons, ih nid]

/-- Rewriting the queued entries to a fresh failure marker makes the
marker count equal the pending count. -/
theorem countP_fail_map (acts : List String) (w : String)
    (hmem : ∀ a ∈ acts, a = "skipped_invalid_format" ∨ a = "skipped_missing_keys" ∨
      a = "skipped_invalid_key_format" ∨ a = "insert_queued")
    (hw1 : w ≠ "skipped_invalid_format") (hw2 : w ≠ "skipped_missing_keys")
    (hw3 : w ≠ "skipped_invalid_key_format") :
    ((acts.map (fun a => if a == "insert_queued" then w else a)).countP (fun a => a == w)) =
      acts.countP (fun a => a == "insert_queued") := by
  induction acts with
  | nil => rfl
  | cons a t ih =>
    have hmem_t : ∀ x ∈ t, _ := fun x hx => hmem x (List.mem_cons_of_mem a hx)
    have iht := ih hmem_t
    rcases hmem a (List.mem_cons_self a t) with rfl | rfl | rfl | rfl
    · have h1 : (("skipped_invalid_format" : String) == "insert_queued") = false := by decide
      have h2 : (("skipped_invalid_format" : String) == w) = false := by
        rw [beq_eq_false_iff_ne]
        exact fun he => hw1 he.symm
      simp only [List.map_cons, h1, Bool.false_eq_true, if_false, List.countP_cons, h2, iht]
    · have h1 : (("skipped_missing_keys" : String) == "insert_queued") = false := by decide
      have h2 : (("skipped_missing_keys" : String) == w) = false := by
        rw [beq_eq_false_iff_ne]
        exact fun he => hw2 he.symm
      simp only [List.map_cons, h1, Bool.false_eq_true, if_false, List.countP_cons, h2, iht]
    · have h1 : (("skipped_invalid_key_format" : String) == "insert_queued") = false := by decide
      have h2 : (("skipped_invalid_key_format" : String) == w) = false := by
        rw [beq_eq_false_iff_ne]
        exact fun he => hw3 he.symm
      simp only [List.map_cons, h1, Bool.false_eq_true, if_false, List.countP_cons, h2, iht]
    · have h1 : (("insert_queued" : String) == "insert_queued") = true := by decide
      have h2 : (w == w) = true := beq_self_eq_true w
      simp only [List.map_cons, h1, if_true, List.countP_cons, h2, iht]

/-- C2: a failed batch commit on an insert-only path leaves the store
untouched (full rollback), reports `inserted = 0`, counts the whole
pending set as database errors, and classifies the response as the
storage failure (generic endpoint: `error` / 500; demand bulk endpoint:
409 for a uniqueness violation, 500 otherwise, with every queued item
rewritten to the failure action). -/
theorem c2_commit_failure_rollback (store : List PnxRow) (items : List PnxItem)
    (s : DemandStore) (ditems : List DemandBulkItem) (cres : CommitResult) :
    (pendingOf classifyPnxItem items ≠ [] →
      (submit_generic_batch_insert_only store items false).2 = store ∧
      (submit_generic_batch_insert_only store items false).1.summary.inserted = 0 ∧
      (submit_generic_batch_insert_only store items false).1.summary.database_errors =
        (pendingOf classifyPnxItem items).length ∧
      (submit_generic_batch_insert_only store items false).1.summary.failed_validation =
        (invalidIdxFrom classifyPnxItem 0 items).length ∧
      (submit_generic_batch_insert_only store items false).1.summary.total_records_received =
        items.length ∧
      (submit_generic_batch_insert_only store items false).1.status = "error" ∧
      (submit_generic_batch_insert_only store items false).1.http = 500) ∧
    (cres ≠ .ok → (bulkPrepareAux s.nextId ditems).1 ≠ [] →
      (submit_data_bulk s ditems cres).2 = s ∧
      (submit_data_bulk s ditems cres).1.summary =
        some { totalRecordsReceived := ditems.length,
               recordsAttemptedInsert := (bulkPrepareAux s.nextId ditems).1.length,
               recordsWithValidationErrors := (bulkPrepareAux s.nextId ditems).2.1,
               successfullyInserted := 0,
               failedOrRolledBack := ditems.length - (bulkPrepareAux s.nextId ditems).2.1 } ∧
      ((submit_data_bulk s ditems cres).1.actions.countP
          (fun a => a == bulkFailAction cres)) =
        (bulkPrepareAux s.nextId ditems).1.length ∧
      (submit_data_bulk s ditems cres).1.http =
        (if cres = .integrityErr then 409 else 500)) := by
  constructor
  · intro hp
    have hemp : items.isEmpty = false := by
      cases items with
      | nil => simp [pendingOf] at hp
      | cons a t => rfl
    have hpe : (pendingOf classifyPnxItem items).isEmpty = false := by
      cases hq : pendingOf classifyPnxItem items with
      | nil => exact absurd hq hp
      | cons a t => rfl
    simp [submit_generic_batch_insert_only, hemp, hpe]
  · intro hcres hpend
    have hemp : ditems.isEmpty = false := by
      cases ditems with
      | nil => simp [bulkPrepareAux] at hpend
      | cons a t => rfl
    have hpe : (bulkPrepareAux s.nextId ditems).1.isEmpty = false := by
      cases hq : (bulkPrepareAux s.nextId ditems).1 with
      | nil => exact absurd hq hpend
      | cons a t => rfl
    have hmem := bulkPrepare_actions_mem ditems s.nextId
    have hcount := bulkPrepare_countP_queued ditems s.nextId
    have hnote_count : ∀ c : CommitResult, c ≠ .ok →
        ((bulkBatchNote c).countP (fun a => a == bulkFailAction c)) = 0 := by
      intro c hc
      cases c with
      | ok => exact absurd rfl hc
      | integrityErr => decide
      | sqlaErr => decide
      | otherErr => decide
    have hmap : ∀ c : CommitResult, c ≠ .ok →
        (((bulkPrepareAux s.nextId ditems).2.2.map
            (fun a => if a == "insert_queued" then bulkFailAction c else a)).countP
          (fun a => a == bulkFailAction c)) = (bulkPrepareAux s.nextId ditems).1.length := by
      intro c hc
      rw [countP_fail_map _ _ hmem]
      · exact hcount
      · cases c with
        | ok => exact absurd rfl hc
        | integrityErr => decide
        | sqlaErr => decide
        | otherErr => decide
      · cases c with
        | ok => exact absurd rfl hc
        | integrityErr => decide
        | sqlaErr => decide
        | otherErr => decide
      · cases c with
        | ok => exact absurd rfl hc
        | integrityErr => decide
        | sqlaErr => decide
        | otherErr => decide
    cases cres with
    | ok => exact absurd rfl hcres
    | integrityErr =>
      refine ⟨?_, ?_, ?_, ?_⟩
      · simp [submit_data_bulk, hemp, hpe]
      · simp [submit_data_bulk, hemp, hpe]
      · simp only [submit_data_bulk, hemp, Bool.false_eq_true, if_false, hpe]
        rw [List.countP_append, hmap .integrityErr (by simp), hnote_count .integrityErr (by simp)]
        omega
      · simp [submit_data_bulk, hemp, hpe]
    | sqlaErr =>
      refine ⟨?_, ?_, ?_, ?_⟩
      · simp [submit_data_bulk, hemp, hpe]
      · simp [submit_data_bulk, hemp, hpe]
      · simp only [submit_data_bulk, hemp, Bool.false_eq_true, if_false, hpe]
        rw [List.countP_append, hmap .sqlaErr (by simp), hnote_count .sqlaErr (by simp)]
        omega
      · simp [submit_data_bulk, hemp, hpe]
    | otherErr =>
      refine ⟨?_, ?_, ?_, ?_⟩
      · simp [submit_data_bulk, hemp, hpe]
      · simp [submit_data_bulk, hemp, hpe]
      · simp only [submit_data_bulk, hemp, Bool.false_eq_true, if_false, hpe]
        rw [List.countP_append, hmap .otherErr (by simp), hnote_count .otherErr (by simp)]
        omega
      · simp [submit_data_bulk, hemp, hpe]



/-- C2 witness: a one-record batch whose commit fails is rolled back on
both endpoints (generic: error / 500; demand bulk: duplicate → 409). -/
theorem c2_commit_failure_rollback_witness :
    ((submit_generic_batch_insert_only [] [pnxDemoRec 10] false).2 = [] ∧
     (submit_generic_batch_insert_only [] [pnxDemoRec 10] false).1.status = "error" ∧
     (submit_generic_batch_insert_only [] [pnxDemoRec 10] false).1.http = 500 ∧
     (submit_generic_batch_insert_only [] [pnxDemoRec 10] false).1.summary.database_errors = 1 ∧
     (submit_generic_batch_insert_only [] [pnxDemoRec 10] false).1.summary.inserted = 0) ∧
    ((submit_data_bulk ⟨[], 0⟩ [.obj demandDemoReq] .integrityErr).2 = ⟨[], 0⟩ ∧
     (submit_data_bulk ⟨[], 0⟩ [.obj demandDemoReq] .integrityErr).1.http = 409) :=
  have hg := (c2_commit_failure_rollback [] [pnxDemoRec 10] ⟨[], 0⟩ [.obj demandDemoReq]
      .integrityErr).1 (by decide)
  have hb := (c2_commit_failure_rollback [] [pnxDemoRec 10] ⟨[], 0⟩ [.obj demandDemoReq]
      .integrityErr).2 (by decide) (by decide)
  ⟨⟨hg.1, hg.2.2.2.2.2.1, hg.2.2.2.2.2.2, hg.2.2.1.trans (by decide), hg.2.1⟩,
   ⟨hb.1, hb.2.2.2.trans (by decide)⟩⟩

/-- C7 counterexample: as stated, the claim fails — an empty list to the
real-balance batch endpoint is rejected with HTTP 400
("Invalid input: List cannot be empty.", demanda_real_balance.py lines
28-29), not answered with a success / 200 no-op. -/
theorem c7_balance_empty_list_rejected :
    (add_demanda_records_batch [] [] .ok).1 = .emptyListReject ∧
    (add_demanda_records_batch [] [] .ok).2.1 = 400 ∧
    ((add_demanda_records_batch [] [] .ok).2.1 = 200 → False) := by
  decide

/-- C7 (amended): the generic and transfer-capacity insert-only
endpoints answer an empty list with status `success`,
`summary.inserted = 0` and HTTP 200, store untouched; the demand bulk
endpoint answers status `success` / 200 with no summary object; the
real-balance endpoint instead rejects an empty list with HTTP 400, also
without touching the store. -/
theorem c7_empty_batch_noop (pnxStore : List PnxRow) (capStore : List CapRow)
    (dStore : DemandStore) (balStore : List BalanceRow) (commitOk : Bool)
    (cres : CommitResult) :
    submit_generic_batch_insert_only pnxStore [] commitOk =
      ({ status := "success",
         summary := { total_records_received := 0, inserted := 0,
                      failed_validation := 0, database_errors := 0 },
         errorIdx := [], http := 200 }, pnxStore) ∧
    submit_capacidad_transferencia_batch capStore [] commitOk =
      ({ status := "success",
         summary := { total_records_received := 0, inserted := 0,
                      failed_validation := 0, database_errors := 0 },
         errorIdx := [], http := 200 }, capStore) ∧
    submit_data_bulk dStore [] cres =
      ({ statusKey := some "success", summary := none, actions := [], http := 200 }, dStore) ∧
    add_demanda_records_batch balStore [] cres = (.emptyListReject, 400, balStore) := by
  exact ⟨rfl, rfl, rfl, rfl⟩



/-- Dropping an item the bulk pre-commit pass rejects changes neither the
pending rows nor their ids, and adds exactly one validation error. -/
theorem bulkPrepare_middle (bad : DemandBulkItem) (hb : bulkItemValid bad = false) :
    ∀ (xs ys : List DemandBulkItem) (nid : Nat),
      (bulkPrepareAux nid (xs ++ bad :: ys)).1 = (bulkPrepareAux nid (xs ++ ys)).1 ∧
      (bulkPrepareAux nid (xs ++ bad :: ys)).2.1 = (bulkPrepareAux nid (xs ++ ys)).2.1 + 1 := by
  intro xs
  induction xs with
  | nil =>
    intro ys nid
    cases bad with
    | notObj v => simp [bulkPrepareAux]
    | obj req =>
      cases hv : validateDemandKeyBulk req with
      | ok v => simp [bulkItemValid, hv] at hb
      | error er => cases er <;> simp [bulkPrepareAux, hv]
  | cons a t ih =>
    intro ys nid
    cases a with
    | notObj v => simp [bulkPrepareAux, ih ys nid]
    | obj req =>
      cases hv : validateDemandKeyBulk req with
      | ok v =>
        obtain ⟨d, h, g⟩ := v
        simp [bulkPrepareAux, hv, ih ys (nid + 1)]
      | error er => cases er <;> simp [bulkPrepareAux, hv, ih ys nid]

/-- C6 (amended): on the insert-only batch endpoints (generic PND/PML and
transfer capacity) and on the demand bulk endpoint, a per-record
validation failure is recovered locally — the failing record is dropped
from the pending set with its index recorded (insert-only endpoints),
one more validation error is counted, and the store effect is exactly
that of the batch without the failing record. The real-balance endpoint
is the exception: one invalid record aborts the whole batch — the store
is left untouched and no creation outcome is ever reported. -/
theorem c6_validation_failure_recovery :
    (∀ (store : List PnxRow) (xs ys : List PnxItem) (bad : PnxItem) (commitOk : Bool),
      classifyPnxItem bad = none →
      pendingOf classifyPnxItem (xs ++ bad :: ys) = pendingOf classifyPnxItem (xs ++ ys) ∧
      xs.length ∈ invalidIdxFrom classifyPnxItem 0 (xs ++ bad :: ys) ∧
      (submit_generic_batch_insert_only store (xs ++ bad :: ys) commitOk).2 =
        (submit_generic_batch_insert_only store (xs ++ ys) commitOk).2 ∧
      some xs.length ∈
        (submit_generic_batch_insert_only store (xs ++ bad :: ys) commitOk).1.errorIdx) ∧
    (∀ (store : List CapRow) (xs ys : List CapItem) (bad : CapItem) (commitOk : Bool),
      classifyCapItem bad = none →
      pendingOf classifyCapItem (xs ++ bad :: ys) = pendingOf classifyCapItem (xs ++ ys) ∧
      xs.length ∈ invalidIdxFrom classifyCapItem 0 (xs ++ bad :: ys) ∧
      (submit_capacidad_transferencia_batch store (xs ++ bad :: ys) commitOk).2 =
        (submit_capacidad_transferencia_batch store (xs ++ ys) commitOk).2 ∧
      some xs.length ∈
        (submit_capacidad_transferencia_batch store (xs ++ bad :: ys) commitOk).1.errorIdx) ∧
    (∀ (s : DemandStore) (xs ys : List DemandBulkItem) (bad : DemandBulkItem)
        (cres : CommitResult),
      bulkItemValid bad = false →
      (bulkPrepareAux s.nextId (xs ++ bad :: ys)).1 =
        (bulkPrepareAux s.nextId (xs ++ ys)).1 ∧
      (bulkPrepareAux s.nextId (xs ++ bad :: ys)).2.1 =
        (bulkPrepareAux s.nextId (xs ++ ys)).2.1 + 1 ∧
      (submit_data_bulk s (xs ++ bad :: ys) cres).2 =
        (submit_data_bulk s (xs ++ ys) cres).2) ∧
    (∀ (store : List BalanceRow) (data : List BalanceItem) (cres : CommitResult),
      (data.map parseBalanceItem).any Option.isNone = true →
      (add_demanda_records_batch store data cres).2.2 = store ∧
      ∀ n, (add_demanda_records_batch store data cres).1 ≠ .createdOk n) := by
  refine ⟨?_, ?_, ?_, ?_⟩
  · intro store xs ys bad commitOk hb
    have hpend := pendingOf_middle classifyPnxItem xs ys bad hb
    have hmem0 := invalidIdx_middle_mem classifyPnxItem bad hb xs ys 0
    have hmem : xs.length ∈ invalidIdxFrom classifyPnxItem 0 (xs ++ bad :: ys) := by
      simpa using hmem0
    have hne1 : (xs ++ bad :: ys).isEmpty = false := by cases xs <;> rfl
    refine ⟨hpend, hmem, ?_, ?_⟩
    · by_cases hL2 : (xs ++ ys).isEmpty
      · have h0 : xs ++ ys = [] := List.isEmpty_iff.mp hL2
        obtain ⟨hx, hy⟩ := List.append_eq_nil.mp h0
        subst hx
        subst hy
        simp [submit_generic_batch_insert_only, pendingOf, List.filterMap_cons, hb]
      · have hne2 : (xs ++ ys).isEmpty = false := by
          cases h : xs ++ ys with
          | nil => rw [h] at hL2; exact absurd rfl hL2
          | cons a t => rfl
        simp only [submit_generic_batch_insert_only, hne1, hne2, Bool.false_eq_true,
          if_false, hpend]
        by_cases hpe : (pendingOf classifyPnxItem (xs ++ ys)).isEmpty
        · simp [hpe]
        · by_cases hck : commitOk <;> simp [hpe, hck]
    · have hsome : some xs.length ∈
          (invalidIdxFrom classifyPnxItem 0 (xs ++ bad :: ys)).map some :=
        List.mem_map_of_mem some hmem
      simp only [submit_generic_batch_insert_only, hne1, Bool.false_eq_true, if_false]
      by_cases hpe : (pendingOf classifyPnxItem (xs ++ bad :: ys)).isEmpty
      · simpa [hpe] using hsome
      · by_cases hck : commitOk
        · simpa [hpe, hck] using hsome
        · simp only [hpe, Bool.false_eq_true, if_false, hck]
          exact List.mem_append_left _ hsome
  · intro store xs ys bad commitOk hb
    have hpend := pendingOf_middle classifyCapItem xs ys bad hb
    have hmem0 := invalidIdx_middle_mem classifyCapItem bad hb xs ys 0
    have hmem : xs.length ∈ invalidIdxFrom classifyCapItem 0 (xs ++ bad :: ys) := by
      simpa using hmem0
    have hne1 : (xs ++ bad :: ys).isEmpty = false := by cases xs <;> rfl
    refine ⟨hpend, hmem, ?_, ?_⟩
    · by_cases hL2 : (xs ++ ys).isEmpty
      · have h0 : xs ++ ys = [] := List.isEmpty_iff.mp hL2
        obtain ⟨hx, hy⟩ := List.append_eq_nil.mp h0
        subst hx
        subst hy
        simp [submit_capacidad_transferencia_batch, pendingOf, List.filterMap_cons, hb]
      · have hne2 : (xs ++ ys).isEmpty = false := by
          cases h : xs ++ ys with
          | nil => rw [h] at hL2; exact absurd rfl hL2
          | cons a t => rfl
        simp only [submit_capacidad_transferencia_batch, hne1, hne2, Bool.false_eq_true,
          if_false, hpend]
        by_cases hpe : (pendingOf classifyCapItem (xs ++ ys)).isEmpty
        · simp [hpe]
        · by_cases hck : commitOk <;> simp [hpe, hck]
    · have hsome : some xs.length ∈
          (invalidIdxFrom classifyCapItem 0 (xs ++ bad :: ys)).map some :=
        List.mem_map_of_mem some hmem
      simp only [submit_capacidad_transferencia_batch, hne1, Bool.false_eq_true, if_false]
      by_cases hpe : (pendingOf classifyCapItem (xs ++ bad :: ys)).isEmpty
      · simpa [hpe] using hsome
      · by_cases hck : commitOk
        · simpa [hpe, hck] using hsome
        · simp only [hpe, Bool.false_eq_true, if_false, hck]
          exact List.mem_append_left _ hsome
  · intro s xs ys bad cres hb
    have hmid := bulkPrepare_middle bad hb xs ys s.nextId
    have hne1 : (xs ++ bad :: ys).isEmpty = false := by cases xs <;> rfl
    refine ⟨hmid.1, hmid.2, ?_⟩
    by_cases hL2 : (xs ++ ys).isEmpty
    · have h0 : xs ++ ys = [] := List.isEmpty_iff.mp hL2
      obtain ⟨hx, hy⟩ := List.append_eq_nil.mp h0
      subst hx
      subst hy
      have hp : (bulkPrepareAux s.nextId [bad]).1 = [] := by
        simpa using hmid.1
      simp [submit_data_bulk, hp]
    · have hne2 : (xs ++ ys).isEmpty = false := by
        cases h : xs ++ ys with
        | nil => rw [h] at hL2; exact absurd rfl hL2
        | cons a t => rfl
      simp only [submit_data_bulk, hne1, hne2, Bool.false_eq_true, if_false, hmid.1]
      by_cases hpe : (bulkPrepareAux s.nextId (xs ++ ys)).1.isEmpty
      · simp [hpe]
      · cases cres <;> simp [hpe]
  · intro store data cres hinv
    cases data with
    | nil => cases hinv
    | cons first rest =>
      have hred : ∀ (o : BalanceOutcome × Nat × List BalanceRow),
          o.2.2 = store → (∀ n, o.1 ≠ .createdOk n) →
          (add_demanda_records_batch store (first :: rest) cres).1 = o.1 →
          (add_demanda_records_batch store (first :: rest) cres).2.2 = o.2.2 →
          (add_demanda_records_batch store (first :: rest) cres).2.2 = store ∧
          ∀ n, (add_demanda_records_batch store (first :: rest) cres).1 ≠ .createdOk n := by
        intro o ho1 ho2 h1 h2
        exact ⟨h2.trans ho1, fun n hn => ho2 n ((h1.symm.trans hn))⟩
      cases hfp : first.FechaPublicacion with
      | jstr spub =>
        by_cases hsp : spub = ""
        · subst hsp
          refine hred (.validationFailed, 400, store) rfl (fun n => by simp) ?_ ?_ <;>
            simp [add_demanda_records_batch, hfp]
        · cases hiso : dateFromIso spub with
          | none =>
            refine hred (.validationFailed, 400, store) rfl (fun n => by simp) ?_ ?_ <;>
              · simp only [add_demanda_records_batch, hfp]
                rw [if_neg hsp, hiso]
          | some pub =>
            by_cases hdup : store.any (fun r => r.FechaPublicacion == pub)
            · refine hred (.pubDateExists, 409, store) rfl (fun n => by simp) ?_ ?_ <;>
                · simp only [add_demanda_records_batch, hfp]
                  rw [if_neg hsp, hiso]
                  simp only [hdup, if_true]
            · refine hred (.validationFailed, 400, store) rfl (fun n => by simp) ?_ ?_ <;>
                · simp only [add_demanda_records_batch, hfp]
                  rw [if_neg hsp, hiso]
                  simp only [Bool.false_eq_true, if_false,
                    show (store.any fun r => r.FechaPublicacion == pub) = false from
                      Bool.eq_false_iff.mpr hdup,
                    hinv, if_true]
      | jnull =>
        refine hred (.validationFailed, 400, store) rfl (fun n => by simp) ?_ ?_ <;>
          simp [add_demanda_records_batch, hfp]
      | jbool b =>
        refine hred (.unexpectedFailed, 500, store) rfl (fun n => by simp) ?_ ?_ <;>
          simp [add_demanda_records_batch, hfp]
      | jint v =>
        refine hred (.unexpectedFailed, 500, store) rfl (fun n => by simp) ?_ ?_ <;>
          simp [add_demanda_records_batch, hfp]
      | jdec m e =>
        refine hred (.unexpectedFailed, 500, store) rfl (fun n => by simp) ?_ ?_ <;>
          simp [add_demanda_records_batch, hfp]
      | jother t =>
        refine hred (.unexpectedFailed, 500, store) rfl (fun n => by simp) ?_ ?_ <;>
          simp [add_demanda_records_batch, hfp]

/-- C6 counterexample: the claim as stated fails on the real-balance
endpoint — a two-record batch whose first record is valid and whose
second has an unparsable hour is aborted whole: HTTP 400, nothing
stored, the valid record never reaches the commit stage, even though the
commit itself would have succeeded. -/
theorem c6_balance_batch_aborts_on_invalid :
    (parseBalanceItem (balDemoItem (.jint 1))).isSome = true ∧
    parseBalanceItem (balDemoItem (.jstr "xx")) = none ∧
    (add_demanda_records_batch [] [balDemoItem (.jint 1), balDemoItem (.jstr "xx")] .ok).1 =
      .validationFailed ∧
    (add_demanda_records_batch [] [balDemoItem (.jint 1), balDemoItem (.jstr "xx")] .ok).2.1 =
      400 ∧
    (add_demanda_records_batch [] [balDemoItem (.jint 1), balDemoItem (.jstr "xx")] .ok).2.2 =
      [] := by
  decide

/-- C6 witness: on the generic endpoint, the invalid middle record of the
spec's three-record scenario is recovered locally; on the real-balance
endpoint the concrete mixed batch is aborted with the store untouched. -/
theorem c6_validation_failure_recovery_witness :
    (pendingOf classifyPnxItem [pnxDemoRec 10, pnxDemoRec 30, pnxDemoRec 11] =
      pendingOf classifyPnxItem [pnxDemoRec 10, pnxDemoRec 11] ∧
     1 ∈ invalidIdxFrom classifyPnxItem 0 [pnxDemoRec 10, pnxDemoRec 30, pnxDemoRec 11] ∧
     (submit_generic_batch_insert_only [] [pnxDemoRec 10, pnxDemoRec 30, pnxDemoRec 11]
         true).2 =
       (submit_generic_batch_insert_only [] [pnxDemoRec 10, pnxDemoRec 11] true).2) ∧
    ((add_demanda_records_batch [] [balDemoItem (.jint 1), balDemoItem (.jstr "xx")]
        .ok).2.2 = [] ∧
     ∀ n, (add_demanda_records_batch [] [balDemoItem (.jint 1), balDemoItem (.jstr "xx")]
        .ok).1 ≠ .createdOk n) :=
  have hg := c6_validation_failure_recovery.1 [] [pnxDemoRec 10] [pnxDemoRec 11]
    (pnxDemoRec 30) true (by decide)
  have hbal := c6_validation_failure_recovery.2.2.2 []
    [balDemoItem (.jint 1), balDemoItem (.jstr "xx")] .ok (by decide)
  ⟨⟨hg.1, hg.2.1, hg.2.2.1⟩, hbal⟩



/-- C8: both `_to_decimal_or_none` variants are total coercions with the
lenient policy: integers and exact decimal numbers convert to the exact
decimal value (the `pml_pnd_records` variant via `Decimal(str(value))`,
whose string round trip is exact); a string that parses as a decimal
converts to that value; the empty string and `None` normalize to no
value; a non-parsing string and a non-scalar value also normalize to no
value, with the raised conversion errors caught rather than propagated. -/
theorem c8_to_decimal_or_none_total :
    (∀ n : Int, to_decimal_or_none (.jint n) = some (Dec.ofInt n) ∧
      to_decimal_or_none_pnx (.jint n) = some (Dec.ofInt n)) ∧
    (∀ (m : Int) (e : Nat), to_decimal_or_none (.jdec m e) = some ⟨m, e⟩ ∧
      to_decimal_or_none_pnx (.jdec m e) = some ⟨m, e⟩) ∧
    (∀ (s : String) (d : Dec), decimalOfString s = some d →
      to_decimal_or_none (.jstr s) = some d ∧ to_decimal_or_none_pnx (.jstr s) = some d) ∧
    (to_decimal_or_none .jnull = none ∧ to_decimal_or_none_pnx .jnull = none ∧
      to_decimal_or_none (.jstr "") = none ∧ to_decimal_or_none_pnx (.jstr "") = none) ∧
    (∀ s : String, decimalOfString s = none →
      to_decimal_or_none (.jstr s) = none ∧ to_decimal_or_none_pnx (.jstr s) = none) ∧
    (∀ t : String, to_decimal_or_none (.jother t) = none ∧
      (decimalOfString t = none → to_decimal_or_none_pnx (.jother t) = none)) := by
  have hmk : ∀ cs : List Char, decimalOfString (String.mk cs) = decimalOfChars cs :=
    fun cs => rfl
  refine ⟨fun n => ⟨?_, ?_⟩, fun m e => ⟨?_, ?_⟩, fun s d hp => ⟨?_, ?_⟩,
    ⟨rfl, rfl, rfl, rfl⟩, fun s hp => ⟨?_, ?_⟩, fun t => ⟨rfl, fun hp => ?_⟩⟩
  · simp [to_decimal_or_none]
  · show decimalOfString (String.mk (decimalReprChars n 0)) = some (Dec.ofInt n)
    rw [hmk]
    exact decimalOfChars_repr n 0
  · simp [to_decimal_or_none]
  · show decimalOfString (String.mk (decimalReprChars m e)) = some ⟨m, e⟩
    rw [hmk]
    exact decimalOfChars_repr m e
  · have hs : s ≠ "" := by
      intro he
      subst he
      rw [show decimalOfString "" = none from rfl] at hp
      cases hp
    simp only [to_decimal_or_none, hp]
    rw [if_neg]
    simp only [not_or]
    exact ⟨fun h => JVal.noConfusion h, fun h => hs (JVal.jstr.inj h)⟩
  · show decimalOfString s = some d
    exact hp
  · by_cases hs : s = ""
    · subst hs
      rfl
    · simp only [to_decimal_or_none]
      rw [if_neg]
      · exact hp
      · simp only [not_or]
        exact ⟨fun h => JVal.noConfusion h, fun h => hs (JVal.jstr.inj h)⟩
  · show decimalOfString s = none
    exact hp
  · show decimalOfString t = none
    exact hp

/-- C8 witness: `"12.5"` parses to the exact decimal `125/10` on both
variants, and a non-numeric string gives no value on both. -/
theorem c8_to_decimal_or_none_total_witness :
    (to_decimal_or_none (.jstr "12.5") = some ⟨125, 1⟩ ∧
     to_decimal_or_none_pnx (.jstr "12.5") = some ⟨125, 1⟩) ∧
    (to_decimal_or_none (.jstr "1.2.3") = none ∧
     to_decimal_or_none_pnx (.jstr "1.2.3") = none) :=
  ⟨c8_to_decimal_or_none_total.2.2.1 "12.5" ⟨125, 1⟩ (by decide),
   c8_to_decimal_or_none_total.2.2.2.2.1 "1.2.3" (by decide)⟩


end Mercados
